import Mathlib

/-!
Verification development for the telemetry sampling and rate-derivation
engine of the cockpit-task-manager repository.

The engine lives in `src/system-stats-service.ts` (module-level mutable
state plus `fetchSystemStats`, `addHistoryPoint`, the accessor functions)
and, for per-process rates, in the process service.

Embedding conventions:
* JavaScript numbers are modelled by `JsNum := Option ℚ`; `none` stands
  for a non-finite value (`NaN`, and the division-by-zero infinities,
  which never arise on the guarded paths the code takes).  All JS
  arithmetic used by the engine is lifted pointwise with `none`
  propagation, matching `NaN` propagation; `Math.max(0, x)` and
  `Math.min(100, x)` return `NaN` on `NaN`, hence `Option.map`.
* Timestamps (`Date.now()` values) are `Int` milliseconds.  The source
  reads the clock at several points inside one sampling pass; the model
  passes a single `now` for the whole pass (the spec's injected clock).
* JS string splitting is modelled on `List Char`.  For a line `l`,
  `l.trim().split(/\s+/)` equals the list of maximal non-whitespace
  runs of `l` (for the empty/whitespace-only line JS yields `[""]`
  while the model yields `[]`; both fail every `parts.length ≥ k`
  check with `k ≥ 1` and both give `[]` after `slice(1)`, so the two
  are observationally equal everywhere the function is used).
* JS objects used as keyed records (`Record<string, T>`) are modelled
  as insertion-ordered association lists: property update keeps the
  first-insertion position (`upsertA`), and `Object.entries` iterates
  in that order.
* `cockpit.file(...).read()` resolves with the file content, or `null`
  for a missing file, and may reject; a read result is
  `Except Unit (Option String)`.  `Promise.all` rejects iff any read
  rejects (`promiseAll6`).  The `if (content)` guards in the source
  are JS truthiness tests, so `null` and `""` both skip a family.
* Reference/aliasing behaviour of the read-only accessors is modelled
  separately with an explicit heap of arrays (`Heap`, `Addr`), since a
  purely functional model cannot distinguish a live reference from a
  copy.
-/

namespace CockpitTM

/-! ## JS number model -/

/-- A JavaScript number: `some q` is the finite value `q`, `none` is a
non-finite value (`NaN`; the guarded code paths never produce `±Infinity`). -/
abbrev JsNum := Option ℚ

/-- JS `+` (NaN-propagating). -/
def jadd : JsNum → JsNum → JsNum
  | some a, some b => some (a + b)
  | _, _ => none

/-- JS `-` (NaN-propagating). -/
def jsub : JsNum → JsNum → JsNum
  | some a, some b => some (a - b)
  | _, _ => none

/-- JS `*` (NaN-propagating). -/
def jmul : JsNum → JsNum → JsNum
  | some a, some b => some (a * b)
  | _, _ => none

/-- JS `/`.  Division by zero yields `±Infinity`/`NaN` in JS, folded into
the non-finite marker `none`; every division in the engine is guarded by
a positive denominator, so that branch is never taken on reachable inputs. -/
def jdiv : JsNum → JsNum → JsNum
  | some a, some b => if b = 0 then none else some (a / b)
  | _, _ => none

/-- JS `Math.max(0, x)` (`NaN` maps to `NaN`). -/
def jmax0 (x : JsNum) : JsNum := x.map (fun v => max 0 v)

/-- JS `Math.min(100, x)` (`NaN` maps to `NaN`). -/
def jmin100 (x : JsNum) : JsNum := x.map (fun v => min 100 v)

/-- JS `x > 0` (false for `NaN`). -/
def jposB (x : JsNum) : Bool :=
  match x with
  | some v => decide (0 < v)
  | none => false

/-- JS `arr.reduce((a, b) => a + b, 0)`. -/
def jsum (l : List JsNum) : JsNum := l.foldl jadd (some 0)

/-- JS `arr[3]`: an out-of-range access is `undefined`, which behaves as
a non-finite value in the additions where this index is used. -/
def jidx3 (l : List JsNum) : JsNum := (l.get? 3).join

/-- JS `arr[4] || 0`: `undefined`, `NaN` and `0` are all falsy. -/
def jidx4or0 (l : List JsNum) : JsNum := some (((l.get? 4).join).getD 0)

/-! ## Character-level string utilities -/

/-- Numeric value of a digit run (most significant first). -/
def digitsToNat (l : List Char) : Nat :=
  l.foldl (fun a c => a * 10 + (c.toNat - 48)) 0

/-- Value of a parsed decimal literal `[-]intPart.fracPart`. -/
def decValue (neg : Bool) (intPart fracPart : List Char) : ℚ :=
  let mag : ℚ := (digitsToNat intPart : ℚ) +
    (digitsToNat fracPart : ℚ) / ((10 : ℚ) ^ fracPart.length)
  if neg then -mag else mag

/-- Split off an optional leading sign. -/
def splitSign : List Char → Bool × List Char
  | '-' :: r => (true, r)
  | '+' :: r => (false, r)
  | r => (false, r)

/-- JS `Number(s)` restricted to decimal literals: trims, the empty
string is `0`, `[sign] digits [. digits]` (with at least one digit) is
its value, anything else is `NaN`.  (Hex/exponent forms never occur in
the `/proc` tokens this engine parses.) -/
def jsNumberChars (l : List Char) : JsNum :=
  let t := ((l.dropWhile Char.isWhitespace).reverse.dropWhile Char.isWhitespace).reverse
  match t with
  | [] => some 0
  | _ :: _ =>
    let p := splitSign t
    let intPart := p.2.takeWhile Char.isDigit
    let afterInt := p.2.dropWhile Char.isDigit
    match afterInt with
    | [] => if intPart = [] then none else some (decValue p.1 intPart [])
    | '.' :: fr =>
      let fracPart := fr.takeWhile Char.isDigit
      let afterFrac := fr.dropWhile Char.isDigit
      if afterFrac = [] ∧ (intPart ≠ [] ∨ fracPart ≠ [])
        then some (decValue p.1 intPart fracPart) else none
    | _ => none

/-- JS `parseInt(s, 10)`: skips whitespace, optional sign, reads the
maximal leading digit run, `NaN` if there is none; trailing junk ignored. -/
def jsParseIntChars (l : List Char) : JsNum :=
  let t := l.dropWhile Char.isWhitespace
  let p := splitSign t
  let digs := p.2.takeWhile Char.isDigit
  if digs = [] then none
  else some (if p.1 then -(digitsToNat digs : ℚ) else (digitsToNat digs : ℚ))

/-- JS `parseFloat(s)` restricted to plain decimal prefixes (`/proc/uptime`
has no exponent forms): optional sign, `digits[.digits]` or `.digits`,
`NaN` when no digit is found; trailing junk ignored. -/
def jsParseFloatChars (l : List Char) : JsNum :=
  let t := l.dropWhile Char.isWhitespace
  let p := splitSign t
  let intPart := p.2.takeWhile Char.isDigit
  let afterInt := p.2.dropWhile Char.isDigit
  match afterInt with
  | '.' :: fr =>
    let fracPart := fr.takeWhile Char.isDigit
    if intPart = [] ∧ fracPart = [] then none
    else some (decValue p.1 intPart fracPart)
  | _ => if intPart = [] then none else some (decValue p.1 intPart [])

def jsNumber (s : String) : JsNum := jsNumberChars s.data

def jsParseInt (s : String) : JsNum := jsParseIntChars s.data

def jsParseFloat (s : String) : JsNum := jsParseFloatChars s.data

/-- Split at every occurrence of `sep`, JS `s.split(sep)` semantics
(`"".split(sep) = [""]`, empty pieces kept). -/
def splitOnCharAux (sep : Char) : List Char → List (List Char)
  | [] => [[]]
  | c :: rest =>
    let r := splitOnCharAux sep rest
    if c = sep then [] :: r
    else
      match r with
      | [] => [[c]]
      | t :: ts => (c :: t) :: ts

/-- JS `s.split('\n')` (or `s.split(' ')`), as strings. -/
def splitOnChar (sep : Char) (s : String) : List String :=
  (splitOnCharAux sep s.data).map (fun t => String.mk t)

/-- Accumulating worker for `wsTokens` (current token held reversed). -/
def wsTokensGo (cur : List Char) : List Char → List (List Char)
  | [] => if cur = [] then [] else [cur.reverse]
  | c :: rest =>
    if c.isWhitespace then
      if cur = [] then wsTokensGo [] rest
      else cur.reverse :: wsTokensGo [] rest
    else wsTokensGo (c :: cur) rest

/-- Maximal non-whitespace runs of a character list, in order. -/
def wsTokens (l : List Char) : List (List Char) := wsTokensGo [] l

/-- JS `line.trim().split(/\s+/)` (see the header note on the
empty-line corner case, observationally equal everywhere it is used). -/
def trimSplitWs (s : String) : List String :=
  (wsTokens s.data).map (fun t => String.mk t)

/-- Remove the first occurrence of `c`; models the single-replacement
semantics of JS `s.replace(':', '')`. -/
def removeFirstChar (c : Char) : List Char → List Char
  | [] => []
  | x :: r => if x = c then r else x :: removeFirstChar c r

def removeFirstColon (s : String) : String := String.mk (removeFirstChar ':' s.data)

/-! ## Association lists (JS `Record<K, V>` objects)

JS string-keyed objects preserve first-insertion order; assignment to an
existing key updates in place, assignment to a new key appends. -/

/-- First value stored under `k`, if any (JS property read). -/
def lookupA {κ α : Type} [DecidableEq κ] : List (κ × α) → κ → Option α
  | [], _ => none
  | (k', v') :: rest, k => if k' = k then some v' else lookupA rest k

/-- JS property assignment `obj[k] = v`: update in place, or append. -/
def upsertA {κ α : Type} [DecidableEq κ] : List (κ × α) → κ → α → List (κ × α)
  | [], k, v => [(k, v)]
  | (k', v') :: rest, k, v =>
    if k' = k then (k, v) :: rest else (k', v') :: upsertA rest k v

/-! ## History streams -/

/-- Constant `MAX_HISTORY_POINTS` from the source. -/
def MAX_HISTORY_POINTS : Nat := 60

/-- One point of a rolling history stream. -/
structure HistoryPoint where
  timestamp : Int
  value : JsNum
deriving Repr, DecidableEq

/-- Source `addHistoryPoint(arr, value)`: push `{timestamp: Date.now(), value}`,
then `if (arr.length > MAX_HISTORY_POINTS) arr.shift()`. -/
def addHistoryPoint (arr : List HistoryPoint) (now : Int) (value : JsNum) :
    List HistoryPoint :=
  if MAX_HISTORY_POINTS < (arr ++ [HistoryPoint.mk now value]).length
    then (arr ++ [HistoryPoint.mk now value]).drop 1
    else arr ++ [HistoryPoint.mk now value]

/-- N successive `addHistoryPoint` calls starting from the empty stream. -/
def appendAll (ps : List (Int × JsNum)) : List HistoryPoint :=
  ps.foldl (fun arr p => addHistoryPoint arr p.1 p.2) []

/-! ## Rate derivation

All four I/O rate computations in `fetchSystemStats` (aggregate disk,
per-device disk, aggregate network, per-interface network) are the same
inlined expression `Math.max(0, (cur - prev) / 1024 / dt)`, evaluated
only under a `dt > 0` guard. -/

/-- The rate expression `Math.max(0, (curV - prevV) / 1024 / dt)`. -/
def rateKBs (prevV curV : JsNum) (dt : ℚ) : JsNum :=
  jmax0 (jdiv (jdiv (jsub curV prevV) (some 1024)) (some dt))

/-- Elapsed time `dt = (now - prevTimestamp) / 1000` (milliseconds to seconds). -/
def elapsedSecs (prevTs now : Int) : ℚ := ((now - prevTs : Int) : ℚ) / 1000

/-! ## CPU family -/

/-- Source `parseCpuLine(line)`: `line.trim().split(/\s+/).slice(1).map(Number)`. -/
def parseCpuLine (line : String) : List JsNum :=
  ((trimSplitWs line).drop 1).map jsNumber

/-- Test for `/^cpu\d+/` (a per-core line of `/proc/stat`). -/
def isCoreLine (l : String) : Bool :=
  match l.data with
  | 'c' :: 'p' :: 'u' :: d :: _ => d.isDigit
  | _ => false

/-- The CPU usage derivation, as inlined (twice, for the aggregate line
and per core) in `fetchSystemStats`:
`totalDelta = Σcur − Σprev`,
`idleDelta = (cur[3] + (cur[4] || 0)) − (prev[3] + (prev[4] || 0))`,
`usage = totalDelta > 0 ? Math.max(0, Math.min(100, ((totalDelta − idleDelta) / totalDelta) * 100)) : 0`. -/
def cpuUsageOf (prevT curT : List JsNum) : JsNum :=
  let totalDelta := jsub (jsum curT) (jsum prevT)
  let idleDelta := jsub (jadd (jidx3 curT) (jidx4or0 curT))
    (jadd (jidx3 prevT) (jidx4or0 prevT))
  if jposB totalDelta then
    jmax0 (jmin100 (jmul (jdiv (jsub totalDelta idleDelta) totalDelta) (some 100)))
  else some 0

/-- The per-core history update `stats.cpuPerCore.forEach((usage, i) => { if (!perCoreHistories[i]) ...; addHistoryPoint(perCoreHistories[i], usage) })`. -/
def updateCoreHists (now : Int) (usages : List JsNum)
    (hists : List (Nat × List HistoryPoint)) : List (Nat × List HistoryPoint) :=
  usages.enum.foldl
    (fun h iu => upsertA h iu.1 (addHistoryPoint ((lookupA h iu.1).getD []) now iu.2))
    hists

/-- Result of the `=== CPU ===` block: the three `stats` fields it sets. -/
structure CpuBlockOut where
  cpuUsage : JsNum
  cpuCores : Nat
  cpuPerCore : List JsNum
  prevCpuTimes : Option (List JsNum)
  prevPerCoreTimes : Option (List (List JsNum))
  perCoreHistories : List (Nat × List HistoryPoint)
deriving Repr, DecidableEq

/-- The `=== CPU ===` block body, entered only when `statContent` is truthy. -/
def cpuBlockCore (now : Int) (s : String) (prevCpu : Option (List JsNum))
    (prevPerCore : Option (List (List JsNum)))
    (coreHists : List (Nat × List HistoryPoint)) : CpuBlockOut :=
  let lines := splitOnChar '\n' s
  let cpuTotal := parseCpuLine (lines.headD "")
  let coreLines := lines.filter isCoreLine
  let cpuCores := if coreLines.length = 0 then 1 else coreLines.length
  let cpuUsage :=
    match prevCpu with
    | some prev => cpuUsageOf prev cpuTotal
    | none => some 0
  let currentCoreTimes := coreLines.map parseCpuLine
  let cpuPerCore :=
    match prevPerCore with
    | some prevCores =>
      if prevCores.length = currentCoreTimes.length then
        List.zipWith (fun core prev => cpuUsageOf prev core) currentCoreTimes prevCores
      else List.replicate cpuCores (some 0)
    | none => List.replicate cpuCores (some 0)
  { cpuUsage := cpuUsage, cpuCores := cpuCores, cpuPerCore := cpuPerCore,
    prevCpuTimes := some cpuTotal, prevPerCoreTimes := some currentCoreTimes,
    perCoreHistories := updateCoreHists now cpuPerCore coreHists }

/-- Guard `if (statContent) { ... }`: falsy content leaves the defaults and the
previous CPU state untouched. -/
def cpuBlock (now : Int) (content : Option String) (prevCpu : Option (List JsNum))
    (prevPerCore : Option (List (List JsNum)))
    (coreHists : List (Nat × List HistoryPoint)) : CpuBlockOut :=
  match content with
  | some s =>
    if s = "" then
      ⟨some 0, 1, [], prevCpu, prevPerCore, coreHists⟩
    else cpuBlockCore now s prevCpu prevPerCore coreHists
  | none => ⟨some 0, 1, [], prevCpu, prevPerCore, coreHists⟩

/-! ## Memory family -/

/-- Match `key + ':\s*(\d+)'` at the head of `l`: the literal key, a
colon, optional whitespace, then a non-empty digit run (the capture). -/
def matchKeyValAt (key : List Char) (l : List Char) : Option Nat :=
  if key.isPrefixOf l then
    match l.drop key.length with
    | ':' :: rest =>
      let afterWs := rest.dropWhile Char.isWhitespace
      let digs := afterWs.takeWhile Char.isDigit
      if digs = [] then none else some (digitsToNat digs)
    | _ => none
  else none

/-- First match of the regex anywhere in the content (JS `String.match`
scans left to right for the first start position where the whole pattern
matches). -/
def searchKeyVal (key : List Char) : List Char → Option Nat
  | [] => matchKeyValAt key []
  | c :: rest =>
    match matchKeyValAt key (c :: rest) with
    | some v => some v
    | none => searchKeyVal key rest

/-- Helper `getVal(key)` from the memory block:
`const match = content.match(new RegExp(key + ':\\s*(\\d+)')); return match ? parseInt(match[1], 10) : 0`. -/
def getVal (content : String) (key : String) : ℚ :=
  match searchKeyVal key.data content.data with
  | some n => (n : ℚ)
  | none => 0

/-- The six memory/swap fields of `stats`. -/
structure MemVals where
  memoryTotal : ℚ
  memoryUsed : ℚ
  memoryFree : ℚ
  memoryCached : ℚ
  swapTotal : ℚ
  swapUsed : ℚ
deriving Repr, DecidableEq

/-- The `=== Memory ===` block (falsy content leaves the zero defaults). -/
def memBlock (content : Option String) : MemVals :=
  match content with
  | some s =>
    if s = "" then ⟨0, 0, 0, 0, 0, 0⟩
    else
      let memoryTotal := getVal s "MemTotal"
      let memoryFree := getVal s "MemFree"
      let memoryCached := getVal s "Cached" + getVal s "Buffers" + getVal s "SReclaimable"
      let memoryUsed := memoryTotal - memoryFree - memoryCached
      let swapTotal := getVal s "SwapTotal"
      ⟨memoryTotal, memoryUsed, memoryFree, memoryCached, swapTotal,
        swapTotal - getVal s "SwapFree"⟩
  | none => ⟨0, 0, 0, 0, 0, 0⟩

/-! ## Uptime and load -/

/-- Truncation toward zero, as in the JS `%` operator. -/
def qtrunc (q : ℚ) : Int := if 0 ≤ q then Int.floor q else Int.ceil q

/-- JS remainder `a % b` for finite operands, `b ≠ 0`. -/
def jsMod (a b : ℚ) : ℚ := a - b * ((qtrunc (a / b) : Int) : ℚ)

/-- The `=== Uptime ===` block: parse the first field of `/proc/uptime`
and format `d h m`.  On an unparsable field all three `Math.floor`
results are `NaN`, `days > 0` is false, and the template renders
`"NaNh NaNm"`. -/
def uptimeBlock (content : Option String) : String :=
  match content with
  | some s =>
    if s = "" then ""
    else
      match jsParseFloat ((splitOnChar ' ' s).headD "") with
      | none => "NaNh NaNm"
      | some secs =>
        let days : Int := Int.floor (secs / 86400)
        let hours : Int := Int.floor (jsMod secs 86400 / 3600)
        let mins : Int := Int.floor (jsMod secs 3600 / 60)
        if 0 < days then
          toString days ++ "d " ++ toString hours ++ "h " ++ toString mins ++ "m"
        else toString hours ++ "h " ++ toString mins ++ "m"
  | none => ""

/-- The `=== Load ===` block: `content.split(' ').slice(0, 3).map(Number)`. -/
def loadBlock (content : Option String) : List JsNum :=
  match content with
  | some s =>
    if s = "" then [some 0, some 0, some 0]
    else ((splitOnChar ' ' s).take 3).map jsNumber
  | none => [some 0, some 0, some 0]

/-! ## Disk I/O family -/

/-- Test that `pre.isPrefixOf l` and the next character is in `[a-z]`. -/
def prefixThenLower (pre : List Char) (l : List Char) : Bool :=
  pre.isPrefixOf l &&
    (match l.drop pre.length with
     | c :: _ => c.isLower
     | [] => false)

/-- Test `/\d+$/.test(name)`: the name ends in at least one digit, i.e. its
last character is a digit. -/
def endsWithDigit (l : List Char) : Bool :=
  match l.getLast? with
  | some c => c.isDigit
  | none => false

/-- The device filter of the disk block:
`/^(sd|nvme|vd|xvd|hd)[a-z]/.test(devName) && !/\d+$/.test(devName)`. -/
def qualifiesDiskDev (s : String) : Bool :=
  (prefixThenLower ['s', 'd'] s.data || prefixThenLower ['n', 'v', 'm', 'e'] s.data ||
   prefixThenLower ['v', 'd'] s.data || prefixThenLower ['x', 'v', 'd'] s.data ||
   prefixThenLower ['h', 'd'] s.data) && !endsWithDigit s.data

/-- One line of `/proc/diskstats`: with ≥ 14 fields and a qualifying
device name, accumulate `parseInt(parts[5]) * 512` and
`parseInt(parts[9]) * 512` into the totals and record the device. -/
def diskLineStep (acc : JsNum × JsNum × List (String × JsNum × JsNum)) (line : String) :
    JsNum × JsNum × List (String × JsNum × JsNum) :=
  let parts := trimSplitWs line
  if 14 ≤ parts.length then
    let devName := (parts.get? 2).getD ""
    if qualifiesDiskDev devName then
      let read := jmul (jsParseInt ((parts.get? 5).getD "")) (some 512)
      let write := jmul (jsParseInt ((parts.get? 9).getD "")) (some 512)
      (jadd acc.1 read, jadd acc.2.1 write, upsertA acc.2.2 devName (read, write))
    else acc
  else acc

/-- The first loop of the disk block: `(totalRead, totalWrite, currentPerDisk)`. -/
def parseDiskStats (content : String) : JsNum × JsNum × List (String × JsNum × JsNum) :=
  (splitOnChar '\n' content).foldl diskLineStep (some 0, some 0, [])

/-- Stored `prevDiskStats` / `prevPerDiskStats[dev]` entry: `{read, write, timestamp}`. -/
structure DiskPrev where
  read : JsNum
  write : JsNum
  timestamp : Int
deriving Repr, DecidableEq

/-- A `stats.perDiskStats[dev]` entry. -/
structure RatePair where
  readRate : JsNum
  writeRate : JsNum
deriving Repr, DecidableEq

/-- A `perDiskHistories[dev]` entry. -/
structure PerDiskHist where
  read : List HistoryPoint
  write : List HistoryPoint
deriving Repr, DecidableEq

/-- The per-device loop of the disk block, over `Object.entries(currentPerDisk)`:
emit a rate sample and history points only for already-tracked devices with
positive elapsed time; always refresh the stored baseline. -/
def perDiskLoop (now : Int) :
    List (String × JsNum × JsNum) → List (String × DiskPrev) →
    List (String × RatePair) → List (String × PerDiskHist) →
    List (String × DiskPrev) × List (String × RatePair) × List (String × PerDiskHist)
  | [], prevS, out, hists => (prevS, out, hists)
  | (dev, rw) :: rest, prevS, out, hists =>
    match lookupA prevS dev with
    | some p =>
      let dt := elapsedSecs p.timestamp now
      if 0 < dt then
        let readRate := rateKBs p.read rw.1 dt
        let writeRate := rateKBs p.write rw.2 dt
        let h0 := (lookupA hists dev).getD ⟨[], []⟩
        perDiskLoop now rest (upsertA prevS dev ⟨rw.1, rw.2, now⟩)
          (upsertA out dev ⟨readRate, writeRate⟩)
          (upsertA hists dev
            ⟨addHistoryPoint h0.read now readRate, addHistoryPoint h0.write now writeRate⟩)
      else
        perDiskLoop now rest (upsertA prevS dev ⟨rw.1, rw.2, now⟩) out hists
    | none =>
      perDiskLoop now rest (upsertA prevS dev ⟨rw.1, rw.2, now⟩) out hists

/-- Everything the `=== Disk I/O ===` block produces. -/
structure DiskBlockOut where
  diskReadRate : JsNum
  diskWriteRate : JsNum
  perDiskStats : List (String × RatePair)
  prevDiskStats : Option DiskPrev
  prevPerDiskStats : List (String × DiskPrev)
  perDiskHistories : List (String × PerDiskHist)
deriving Repr, DecidableEq

/-- The disk block body on a parsed `(totalRead, totalWrite, currentPerDisk)`. -/
def diskBlockCore (now : Int) (parsed : JsNum × JsNum × List (String × JsNum × JsNum))
    (prevAgg : Option DiskPrev) (prevPer : List (String × DiskPrev))
    (hists : List (String × PerDiskHist)) : DiskBlockOut :=
  let aggRates :=
    match prevAgg with
    | some p =>
      let dt := elapsedSecs p.timestamp now
      if 0 < dt then (rateKBs p.read parsed.1 dt, rateKBs p.write parsed.2.1 dt)
      else (some 0, some 0)
    | none => (some 0, some 0)
  let loopRes := perDiskLoop now parsed.2.2 prevPer [] hists
  { diskReadRate := aggRates.1, diskWriteRate := aggRates.2,
    perDiskStats := loopRes.2.1,
    prevDiskStats := some ⟨parsed.1, parsed.2.1, now⟩,
    prevPerDiskStats := loopRes.1,
    perDiskHistories := loopRes.2.2 }

/-- Guard `if (diskstatsContent) { ... }` (falsy content skips the family). -/
def diskBlock (now : Int) (content : Option String) (prevAgg : Option DiskPrev)
    (prevPer : List (String × DiskPrev)) (hists : List (String × PerDiskHist)) :
    DiskBlockOut :=
  match content with
  | some s =>
    if s = "" then ⟨some 0, some 0, [], prevAgg, prevPer, hists⟩
    else diskBlockCore now (parseDiskStats s) prevAgg prevPer hists
  | none => ⟨some 0, some 0, [], prevAgg, prevPer, hists⟩

/-! ## Network family -/

/-- Stored `prevNetStats` / `prevPerIfaceStats[iface]` entry: `{sent, recv, timestamp}`. -/
structure NetPrev where
  sent : JsNum
  recv : JsNum
  timestamp : Int
deriving Repr, DecidableEq

/-- A `stats.perIfaceStats[iface]` entry. -/
structure NetRatePair where
  sentRate : JsNum
  recvRate : JsNum
deriving Repr, DecidableEq

/-- A `perIfaceHistories[iface]` entry. -/
structure PerIfaceHist where
  sent : List HistoryPoint
  recv : List HistoryPoint
deriving Repr, DecidableEq

/-- One line of `/proc/net/dev` (after the two header lines): with ≥ 10
fields and a non-loopback interface, accumulate `parseInt(parts[1])`
(received) and `parseInt(parts[9])` (sent) and record the interface. -/
def netLineStep (acc : JsNum × JsNum × List (String × JsNum × JsNum)) (line : String) :
    JsNum × JsNum × List (String × JsNum × JsNum) :=
  let parts := trimSplitWs line
  if 10 ≤ parts.length then
    let iface := removeFirstColon ((parts.get? 0).getD "")
    if iface = "lo" then acc
    else
      let recv := jsParseInt ((parts.get? 1).getD "")
      let sent := jsParseInt ((parts.get? 9).getD "")
      (jadd acc.1 sent, jadd acc.2.1 recv, upsertA acc.2.2 iface (sent, recv))
  else acc

/-- The first loop of the network block: `(totalSent, totalRecv, currentPerIface)`. -/
def parseNetStats (content : String) : JsNum × JsNum × List (String × JsNum × JsNum) :=
  ((splitOnChar '\n' content).drop 2).foldl netLineStep (some 0, some 0, [])

/-- The per-interface loop of the network block (same structure as the
per-device disk loop; a row value is `(sent, recv)`). -/
def perIfaceLoop (now : Int) :
    List (String × JsNum × JsNum) → List (String × NetPrev) →
    List (String × NetRatePair) → List (String × PerIfaceHist) →
    List (String × NetPrev) × List (String × NetRatePair) × List (String × PerIfaceHist)
  | [], prevS, out, hists => (prevS, out, hists)
  | (iface, sr) :: rest, prevS, out, hists =>
    match lookupA prevS iface with
    | some p =>
      let dt := elapsedSecs p.timestamp now
      if 0 < dt then
        let sentRate := rateKBs p.sent sr.1 dt
        let recvRate := rateKBs p.recv sr.2 dt
        let h0 := (lookupA hists iface).getD ⟨[], []⟩
        perIfaceLoop now rest (upsertA prevS iface ⟨sr.1, sr.2, now⟩)
          (upsertA out iface ⟨sentRate, recvRate⟩)
          (upsertA hists iface
            ⟨addHistoryPoint h0.sent now sentRate, addHistoryPoint h0.recv now recvRate⟩)
      else
        perIfaceLoop now rest (upsertA prevS iface ⟨sr.1, sr.2, now⟩) out hists
    | none =>
      perIfaceLoop now rest (upsertA prevS iface ⟨sr.1, sr.2, now⟩) out hists

/-- Everything the `=== Network ===` block produces. -/
structure NetBlockOut where
  networkSentRate : JsNum
  networkRecvRate : JsNum
  perIfaceStats : List (String × NetRatePair)
  prevNetStats : Option NetPrev
  prevPerIfaceStats : List (String × NetPrev)
  perIfaceHistories : List (String × PerIfaceHist)
deriving Repr, DecidableEq

/-- The network block body on a parsed `(totalSent, totalRecv, currentPerIface)`. -/
def netBlockCore (now : Int) (parsed : JsNum × JsNum × List (String × JsNum × JsNum))
    (prevAgg : Option NetPrev) (prevPer : List (String × NetPrev))
    (hists : List (String × PerIfaceHist)) : NetBlockOut :=
  let aggRates :=
    match prevAgg with
    | some p =>
      let dt := elapsedSecs p.timestamp now
      if 0 < dt then (rateKBs p.sent parsed.1 dt, rateKBs p.recv parsed.2.1 dt)
      else (some 0, some 0)
    | none => (some 0, some 0)
  let loopRes := perIfaceLoop now parsed.2.2 prevPer [] hists
  { networkSentRate := aggRates.1, networkRecvRate := aggRates.2,
    perIfaceStats := loopRes.2.1,
    prevNetStats := some ⟨parsed.1, parsed.2.1, now⟩,
    prevPerIfaceStats := loopRes.1,
    perIfaceHistories := loopRes.2.2 }

/-- Guard `if (netContent) { ... }` (falsy content skips the family). -/
def netBlock (now : Int) (content : Option String) (prevAgg : Option NetPrev)
    (prevPer : List (String × NetPrev)) (hists : List (String × PerIfaceHist)) :
    NetBlockOut :=
  match content with
  | some s =>
    if s = "" then ⟨some 0, some 0, [], prevAgg, prevPer, hists⟩
    else netBlockCore now (parseNetStats s) prevAgg prevPer hists
  | none => ⟨some 0, some 0, [], prevAgg, prevPer, hists⟩

/-! ## The sampling pass -/

/-- The `SystemStats` result object (`uptime` as the formatted string,
`loadAvg` as parsed). -/
structure SystemStats where
  cpuUsage : JsNum
  cpuCores : Nat
  cpuPerCore : List JsNum
  memoryTotal : ℚ
  memoryUsed : ℚ
  memoryFree : ℚ
  memoryCached : ℚ
  swapTotal : ℚ
  swapUsed : ℚ
  diskReadRate : JsNum
  diskWriteRate : JsNum
  perDiskStats : List (String × RatePair)
  networkSentRate : JsNum
  networkRecvRate : JsNum
  perIfaceStats : List (String × NetRatePair)
  uptime : String
  loadAvg : List JsNum
deriving Repr, DecidableEq

/-- The defaults `fetchSystemStats` starts every pass with. -/
def initStats : SystemStats :=
  { cpuUsage := some 0, cpuCores := 1, cpuPerCore := [],
    memoryTotal := 0, memoryUsed := 0, memoryFree := 0, memoryCached := 0,
    swapTotal := 0, swapUsed := 0,
    diskReadRate := some 0, diskWriteRate := some 0, perDiskStats := [],
    networkSentRate := some 0, networkRecvRate := some 0, perIfaceStats := [],
    uptime := "", loadAvg := [some 0, some 0, some 0] }

/-- The six module-level `history` streams. -/
structure SystemHistoryRec where
  cpu : List HistoryPoint
  memory : List HistoryPoint
  diskRead : List HistoryPoint
  diskWrite : List HistoryPoint
  networkSent : List HistoryPoint
  networkRecv : List HistoryPoint
deriving Repr, DecidableEq

/-- The module-level mutable state of `system-stats-service.ts`
(GPU state aside, which no claim about `fetchSystemStats` touches). -/
structure ServiceState where
  prevCpuTimes : Option (List JsNum)
  prevPerCoreTimes : Option (List (List JsNum))
  prevNetStats : Option NetPrev
  prevPerIfaceStats : List (String × NetPrev)
  prevDiskStats : Option DiskPrev
  prevPerDiskStats : List (String × DiskPrev)
  history : SystemHistoryRec
  perDiskHistories : List (String × PerDiskHist)
  perIfaceHistories : List (String × PerIfaceHist)
  perCoreHistories : List (Nat × List HistoryPoint)
deriving Repr, DecidableEq

/-- The initial module state (all `null` / empty). -/
def initState : ServiceState :=
  { prevCpuTimes := none, prevPerCoreTimes := none,
    prevNetStats := none, prevPerIfaceStats := [],
    prevDiskStats := none, prevPerDiskStats := [],
    history := ⟨[], [], [], [], [], []⟩,
    perDiskHistories := [], perIfaceHistories := [], perCoreHistories := [] }

/-- The six unconditional aggregate history appends at the end of every
pass (memory history point: `memoryTotal > 0 ? memoryUsed / memoryTotal * 100 : 0`). -/
def appendAggHistory (now : Int) (stats : SystemStats) (h : SystemHistoryRec) :
    SystemHistoryRec :=
  { cpu := addHistoryPoint h.cpu now stats.cpuUsage,
    memory := addHistoryPoint h.memory now
      (if 0 < stats.memoryTotal then some (stats.memoryUsed / stats.memoryTotal * 100)
       else some 0),
    diskRead := addHistoryPoint h.diskRead now stats.diskReadRate,
    diskWrite := addHistoryPoint h.diskWrite now stats.diskWriteRate,
    networkSent := addHistoryPoint h.networkSent now stats.networkSentRate,
    networkRecv := addHistoryPoint h.networkRecv now stats.networkRecvRate }

/-- Model of `Promise.all` over the six `cockpit.file(...).read()` calls: the
combined promise rejects iff any single read rejects. -/
def promiseAll6 (a b c d e f : Except Unit (Option String)) :
    Except Unit
      (Option String × Option String × Option String × Option String ×
        Option String × Option String) :=
  match a, b, c, d, e, f with
  | .ok x1, .ok x2, .ok x3, .ok x4, .ok x5, .ok x6 => .ok (x1, x2, x3, x4, x5, x6)
  | _, _, _, _, _, _ => .error ()

/-- One sampling pass, `fetchSystemStats()`.  The six read results are the
resolutions/rejections of the six `/proc` reads (in source order:
stat, meminfo, uptime, loadavg, diskstats, net/dev).  A rejection of any
read makes the single surrounding `try` skip every family (the `catch`
only logs), after which the six aggregate history appends still run; the
function itself never throws, which the model expresses by being total. -/
def fetchSystemStats (now : Int)
    (rStat rMeminfo rUptime rLoadavg rDiskstats rNet : Except Unit (Option String))
    (st : ServiceState) : SystemStats × ServiceState :=
  match promiseAll6 rStat rMeminfo rUptime rLoadavg rDiskstats rNet with
  | .error _ =>
    (initStats, { st with history := appendAggHistory now initStats st.history })
  | .ok contents =>
    let cpu := cpuBlock now contents.1 st.prevCpuTimes st.prevPerCoreTimes
      st.perCoreHistories
    let mem := memBlock contents.2.1
    let up := uptimeBlock contents.2.2.1
    let load := loadBlock contents.2.2.2.1
    let dsk := diskBlock now contents.2.2.2.2.1 st.prevDiskStats st.prevPerDiskStats
      st.perDiskHistories
    let net := netBlock now contents.2.2.2.2.2 st.prevNetStats st.prevPerIfaceStats
      st.perIfaceHistories
    let stats : SystemStats :=
      { cpuUsage := cpu.cpuUsage, cpuCores := cpu.cpuCores, cpuPerCore := cpu.cpuPerCore,
        memoryTotal := mem.memoryTotal, memoryUsed := mem.memoryUsed,
        memoryFree := mem.memoryFree, memoryCached := mem.memoryCached,
        swapTotal := mem.swapTotal, swapUsed := mem.swapUsed,
        diskReadRate := dsk.diskReadRate, diskWriteRate := dsk.diskWriteRate,
        perDiskStats := dsk.perDiskStats,
        networkSentRate := net.networkSentRate, networkRecvRate := net.networkRecvRate,
        perIfaceStats := net.perIfaceStats,
        uptime := up, loadAvg := load }
    (stats,
      { prevCpuTimes := cpu.prevCpuTimes, prevPerCoreTimes := cpu.prevPerCoreTimes,
        prevNetStats := net.prevNetStats, prevPerIfaceStats := net.prevPerIfaceStats,
        prevDiskStats := dsk.prevDiskStats, prevPerDiskStats := dsk.prevPerDiskStats,
        history := appendAggHistory now stats st.history,
        perDiskHistories := dsk.perDiskHistories,
        perIfaceHistories := net.perIfaceHistories,
        perCoreHistories := cpu.perCoreHistories })

/-! ## Reference model of the read-only accessors

The purely functional model above cannot distinguish returning a live
array reference from returning a copy, which is exactly what the
accessor claims are about.  Here JS arrays live in an explicit heap and
values hold addresses: object spread (`{...obj}`) copies the top-level
fields (the addresses) into a new object, while an array spread
(`[...arr]`) allocates a fresh array with the same contents. -/

/-- A JS array reference. -/
abbrev Addr := Nat

/-- The heap: the array stored at each allocated address. -/
abbrev Heap := List (List HistoryPoint)

/-- Dereference an array. -/
def readArr (h : Heap) (a : Addr) : List HistoryPoint := (h.get? a).getD []

/-- In-place mutation of the array at `a`. -/
def writeArr (h : Heap) (a : Addr) (v : List HistoryPoint) : Heap := h.set a v

/-- Allocate a fresh array holding `v`. -/
def allocArr (h : Heap) (v : List HistoryPoint) : Heap × Addr := (h ++ [v], h.length)

/-- Array spread `[...arr]`: allocate a fresh array with the current contents of `a`. -/
def copyArr (h : Heap) (a : Addr) : Heap × Addr := allocArr h (readArr h a)

/-- Source `addHistoryPoint` acting on a live array in the heap (push + bounded
shift, in place) — what a later sampling pass does to the internal streams. -/
def addHistoryPointAt (h : Heap) (a : Addr) (now : Int) (v : JsNum) : Heap :=
  writeArr h a (addHistoryPoint (readArr h a) now v)

/-- The module-level `history` object: six array references. -/
structure SystemHistoryHandle where
  cpu : Addr
  memory : Addr
  diskRead : Addr
  diskWrite : Addr
  networkSent : Addr
  networkRecv : Addr
deriving Repr, DecidableEq

/-- Source `getSystemHistory(): return { ...history }` — a new top-level object
whose six fields are the same array references as the internal object. -/
def getSystemHistory (hist : SystemHistoryHandle) : SystemHistoryHandle :=
  { cpu := hist.cpu, memory := hist.memory, diskRead := hist.diskRead,
    diskWrite := hist.diskWrite, networkSent := hist.networkSent,
    networkRecv := hist.networkRecv }

/-- Shared body of the four per-entity accessor loops, which are
textually identical in the source up to field names:
`for (const [k, hist] of Object.entries(xs)) result[k] = { a: [...hist.a], b: [...hist.b] }`.
A store entry is `(key, (first-array address, second-array address))`. -/
def copyPairStore {κ : Type} (h : Heap) :
    List (κ × Addr × Addr) → Heap × List (κ × Addr × Addr)
  | [] => (h, [])
  | (k, ar) :: rest =>
    let c1 := copyArr h ar.1
    let c2 := copyArr c1.1 ar.2
    let r := copyPairStore c2.1 rest
    (r.1, (k, c1.2, c2.2) :: r.2)

/-- Shared body for the single-array store (`result[core] = [...hist]`). -/
def copySingleStore {κ : Type} (h : Heap) :
    List (κ × Addr) → Heap × List (κ × Addr)
  | [] => (h, [])
  | (k, a) :: rest =>
    let c1 := copyArr h a
    let r := copySingleStore c1.1 rest
    (r.1, (k, c1.2) :: r.2)

/-- Source `getPerDiskHistory()`: `result[dev] = { read: [...hist.read], write: [...hist.write] }`
(entry addresses: `(read, write)`). -/
def getPerDiskHistory (h : Heap) (perDiskHists : List (String × Addr × Addr)) :
    Heap × List (String × Addr × Addr) :=
  copyPairStore h perDiskHists

/-- Source `getPerIfaceHistory()`: `result[iface] = { sent: [...hist.sent], recv: [...hist.recv] }`
(entry addresses: `(sent, recv)`). -/
def getPerIfaceHistory (h : Heap) (perIfaceHists : List (String × Addr × Addr)) :
    Heap × List (String × Addr × Addr) :=
  copyPairStore h perIfaceHists

/-- Source `getGpuHistory()`: `result[idx] = { usage: [...hist.usage], memory: [...hist.memory] }`
(entry addresses: `(usage, memory)`). -/
def getGpuHistory (h : Heap) (gpuHists : List (Nat × Addr × Addr)) :
    Heap × List (Nat × Addr × Addr) :=
  copyPairStore h gpuHists

/-- Source `getPerCoreHistory()`: `result[core] = [...hist]`. -/
def getPerCoreHistory (h : Heap) (coreHists : List (Nat × Addr)) :
    Heap × List (Nat × Addr) :=
  copySingleStore h coreHists

/-- All array references of a store are live heap addresses (the engine
only ever stores addresses it has allocated). -/
def PairStoreWF {κ : Type} (h : Heap) (store : List (κ × Addr × Addr)) : Prop :=
  ∀ e ∈ store, e.2.1 < h.length ∧ e.2.2 < h.length

/-- Single-array analogue of `PairStoreWF`. -/
def SingleStoreWF {κ : Type} (h : Heap) (store : List (κ × Addr)) : Prop :=
  ∀ e ∈ store, e.2 < h.length

instance {κ : Type} (h : Heap) (store : List (κ × Addr × Addr)) :
    Decidable (PairStoreWF h store) :=
  inferInstanceAs (Decidable (∀ e ∈ store, e.2.1 < h.length ∧ e.2.2 < h.length))

instance {κ : Type} (h : Heap) (store : List (κ × Addr)) :
    Decidable (SingleStoreWF h store) :=
  inferInstanceAs (Decidable (∀ e ∈ store, e.2 < h.length))

/-- What it means for one returned entry to be a fresh, independent copy
of the internal pair `(oa, ob)` as of heap `h`, where `H2` is the heap
after the accessor ran: the returned addresses are fresh (not internal),
they hold the contents the internal arrays had at call time, later
mutation of any internal array leaves them unchanged, and mutation
through them leaves every internal array unchanged. -/
def FreshPair (h : Heap) (H2 : Heap) (ra wa oa ob : Addr) : Prop :=
  h.length ≤ ra ∧ h.length ≤ wa ∧
  readArr H2 ra = readArr h oa ∧ readArr H2 wa = readArr h ob ∧
  (∀ a v, a < h.length →
    readArr (writeArr H2 a v) ra = readArr H2 ra ∧
    readArr (writeArr H2 a v) wa = readArr H2 wa ∧
    readArr (writeArr H2 ra v) a = readArr H2 a ∧
    readArr (writeArr H2 wa v) a = readArr H2 a)

/-- Single-array version of `FreshPair`, for `getPerCoreHistory`. -/
def FreshSingle (h : Heap) (H2 : Heap) (ra oa : Addr) : Prop :=
  h.length ≤ ra ∧ readArr H2 ra = readArr h oa ∧
  (∀ a v, a < h.length →
    readArr (writeArr H2 a v) ra = readArr H2 ra ∧
    readArr (writeArr H2 ra v) a = readArr H2 a)

/-! ## Concrete fixtures used by the scenario theorems

`/proc/diskstats` rows for device `sda` (field 3 is the device name,
field 6 the read-sector counter, field 10 the write-sector counter),
`/proc/stat` aggregate lines, and the states/passes built from them. -/

def okNone : Except Unit (Option String) := Except.ok none

def diskLineA : String := "8 0 sda 10 0 1000 0 0 0 2000 0 0 0 0"

def diskLineB : String := "8 0 sda 10 0 1512 0 0 0 2000 0 0 0 0"

def statLineA : String := "cpu 100 0 50 800 50 0 0 0"

def statLineB : String := "cpu 120 0 60 820 60 0 0 0"

/-- Pass 1: first sight of `sda` (read counter 1000 sectors). -/
def scenPass1 : SystemStats × ServiceState :=
  fetchSystemStats 0 okNone okNone okNone okNone (Except.ok (some diskLineA)) okNone initState

/-- Pass 2, 1000 ms later: `sda` read counter 1512 sectors. -/
def scenPass2 : SystemStats × ServiceState :=
  fetchSystemStats 1000 okNone okNone okNone okNone (Except.ok (some diskLineB)) okNone
    scenPass1.2

/-- Pass 3, another 1000 ms later: the diskstats report contains no
qualifying device at all (`sda` has vanished; reported entity set is empty). -/
def scenPass3 : SystemStats × ServiceState :=
  fetchSystemStats 2000 okNone okNone okNone okNone (Except.ok (some "x")) okNone scenPass2.2

/-- Pass 4: `sda` reappears with the same counters as pass 2. -/
def scenPass4 : SystemStats × ServiceState :=
  fetchSystemStats 3000 okNone okNone okNone okNone (Except.ok (some diskLineB)) okNone
    scenPass3.2

/-- A state whose stored CPU baseline is the tick line `statLineA`. -/
def cpuPrevState : ServiceState :=
  { initState with
    prevCpuTimes := some [some 100, some 0, some 50, some 800, some 50, some 0, some 0, some 0] }

/-- A pass in which the CPU read succeeds but the diskstats read rejects. -/
def c2FailPass : SystemStats × ServiceState :=
  fetchSystemStats 2000 (Except.ok (some statLineB)) okNone okNone okNone (Except.error ())
    okNone cpuPrevState

/-- The same pass with every read succeeding. -/
def c2OkPass : SystemStats × ServiceState :=
  fetchSystemStats 2000 (Except.ok (some statLineB)) okNone okNone okNone (Except.ok none)
    okNone cpuPrevState

/-- A state tracking `sda` (counters of `diskLineA`, in bytes) with
baseline timestamp 1000. -/
def staleDiskState : ServiceState :=
  { initState with
      prevPerDiskStats := [("sda", ⟨some 512000, some 1024000, 1000⟩)],
      prevDiskStats := some ⟨some 512000, some 1024000, 1000⟩ }

/-- A pass over `staleDiskState` whose timestamp equals the stored
baseline timestamp: elapsed time is 0 for the aggregate pair and for `sda`. -/
def c6Pass : SystemStats × ServiceState :=
  fetchSystemStats 1000 okNone okNone okNone okNone (Except.ok (some diskLineB)) okNone
    staleDiskState

/-- Small-counter diskstats rows (2 resp. 3 read sectors, 4 write
sectors), used where a witness needs fully concrete evaluation. -/
def diskLineSmallA : String := "8 0 sda 10 0 2 0 0 0 4 0 0 0 0"

def diskLineSmallB : String := "8 0 sda 10 0 3 0 0 0 4 0 0 0 0"

/-- A state tracking `sda` with the byte counters of `diskLineSmallA`
and baseline timestamp 1000. -/
def smallStaleState : ServiceState :=
  { initState with
      prevPerDiskStats := [("sda", ⟨some 1024, some 2048, 1000⟩)],
      prevDiskStats := some ⟨some 1024, some 2048, 1000⟩ }

/-- A `/proc/diskstats` row for the whole-device NVMe name `nvme0n1`
(14 fields, small counters). -/
def nvmeLine : String := "259 0 nvme0n1 1 2 3 4 5 6 7 8 9 10 11"

/-! # Theorems -/

set_option maxRecDepth 100000

/-! ## Association-list lemmas -/

theorem lookupA_upsertA_self {κ α : Type} [DecidableEq κ] (l : List (κ × α)) (k : κ)
    (v : α) : lookupA (upsertA l k v) k = some v := by
  induction l with
  | nil => simp [upsertA, lookupA]
  | cons e rest ih =>
    by_cases h : e.1 = k
    · simp [upsertA, h, lookupA]
    · simp [upsertA, h, lookupA, ih]

theorem lookupA_upsertA_ne {κ α : Type} [DecidableEq κ] (l : List (κ × α)) (k k' : κ)
    (v : α) (hne : k ≠ k') : lookupA (upsertA l k v) k' = lookupA l k' := by
  induction l with
  | nil => simp [upsertA, lookupA, hne]
  | cons e rest ih =>
    by_cases h : e.1 = k
    · simp [upsertA, h, lookupA, hne]
    · simp [upsertA, h, lookupA, ih]

/-! ## JsNum equation lemmas -/

theorem jadd_some (a b : ℚ) : jadd (some a) (some b) = some (a + b) := rfl

theorem jsub_some (a b : ℚ) : jsub (some a) (some b) = some (a - b) := rfl

theorem jmul_some (a b : ℚ) : jmul (some a) (some b) = some (a * b) := rfl

theorem jdiv_some (a b : ℚ) :
    jdiv (some a) (some b) = if b = 0 then none else some (a / b) := rfl

theorem jmax0_some (a : ℚ) : jmax0 (some a) = some (max 0 a) := rfl

theorem jmin100_some (a : ℚ) : jmin100 (some a) = some (min 100 a) := rfl

theorem jposB_some (a : ℚ) : jposB (some a) = decide (0 < a) := rfl

/-! ## C4: history streams are bounded FIFO windows of capacity 60 -/

theorem addHistoryPoint_drop (l : List HistoryPoint) (t : Int) (v : JsNum) :
    addHistoryPoint (l.drop (l.length - MAX_HISTORY_POINTS)) t v
      = (l ++ [HistoryPoint.mk t v]).drop ((l.length + 1) - MAX_HISTORY_POINTS) := by
  have hM : MAX_HISTORY_POINTS = 60 := rfl
  have hlen : (l.drop (l.length - MAX_HISTORY_POINTS)).length
      = l.length - (l.length - MAX_HISTORY_POINTS) := List.length_drop _ _
  by_cases hn : l.length + 1 ≤ MAX_HISTORY_POINTS
  · have h0 : l.length - MAX_HISTORY_POINTS = 0 := by omega
    have h1 : l.length + 1 - MAX_HISTORY_POINTS = 0 := by omega
    rw [h0, h1]
    simp only [List.drop_zero]
    rw [addHistoryPoint, if_neg (by rw [List.length_append]; simp; omega)]
  · have hge : MAX_HISTORY_POINTS ≤ l.length := by omega
    have hlen60 : (l.drop (l.length - MAX_HISTORY_POINTS)).length = MAX_HISTORY_POINTS := by
      rw [hlen]; omega
    rw [addHistoryPoint]
    rw [if_pos (by rw [List.length_append, hlen60]; simp)]
    rw [List.drop_append_of_le_length (by rw [hlen60]; omega),
      List.drop_append_of_le_length (by omega), List.drop_drop]
    congr 2
    omega

theorem appendAll_eq_drop (ps : List (Int × JsNum)) :
    appendAll ps
      = (ps.map fun p => HistoryPoint.mk p.1 p.2).drop (ps.length - MAX_HISTORY_POINTS) := by
  induction ps using List.reverseRecOn with
  | nil => rfl
  | append_singleton l p ih =>
    have hfold : appendAll (l ++ [p]) = addHistoryPoint (appendAll l) p.1 p.2 := by
      simp [appendAll, List.foldl_append]
    rw [hfold, ih]
    have hmapl : ((l.map fun p => HistoryPoint.mk p.1 p.2)).length = l.length :=
      List.length_map _ _
    have hkey := addHistoryPoint_drop (l.map fun p => HistoryPoint.mk p.1 p.2) p.1 p.2
    rw [hmapl] at hkey
    rw [hkey]
    simp

/-- C4 — **confirmed**.  After `N ≥ 0` appends via `addHistoryPoint`
starting from the empty stream, the stream is exactly the suffix of the
appended points of length `min(N, 60)` — i.e. the most recent
`min(N, 60)` points in insertion order — its length is `min(N, 60)`,
and at every observable point (after any prefix of the appends) the
length never exceeds 60. -/
theorem c4_history_bound (ps : List (Int × JsNum)) :
    appendAll ps
        = (ps.map fun p => HistoryPoint.mk p.1 p.2).drop (ps.length - MAX_HISTORY_POINTS)
      ∧ (appendAll ps).length = min ps.length MAX_HISTORY_POINTS
      ∧ ∀ n : Nat, (appendAll (ps.take n)).length ≤ MAX_HISTORY_POINTS := by
  refine ⟨appendAll_eq_drop ps, ?_, ?_⟩
  · rw [appendAll_eq_drop ps, List.length_drop, List.length_map]
    omega
  · intro n
    rw [appendAll_eq_drop (ps.take n), List.length_drop, List.length_map]
    omega

/-! ## C5: derived rates are never negative -/

/-- C5 — **confirmed**.  `rateKBs` is the (inlined) rate expression
`Math.max(0, (cur − prev) / 1024 / dt)` used by all four rate paths of
`fetchSystemStats` (aggregate disk, per-device disk, aggregate network,
per-interface network), always under a `dt > 0` guard.  For any finite
counter values `p`, `c` (including a counter reset `c < p`) and
timestamps `t0 < t1`, the derived rate is a finite value `r ≥ 0`. -/
theorem c5_rate_nonneg (p c : ℚ) (t0 t1 : Int) (h : t0 < t1) :
    ∃ r : ℚ, rateKBs (some p) (some c) (elapsedSecs t0 t1) = some r ∧ 0 ≤ r := by
  have hdt : 0 < elapsedSecs t0 t1 := by
    have : (0 : ℚ) < ((t1 - t0 : Int) : ℚ) := by
      have : (0 : Int) < t1 - t0 := by omega
      exact_mod_cast this
    unfold elapsedSecs
    positivity
  refine ⟨max 0 ((c - p) / 1024 / elapsedSecs t0 t1), ?_, le_max_left 0 _⟩
  rw [rateKBs, jsub_some, jdiv_some, if_neg (by norm_num), jdiv_some,
    if_neg (by exact ne_of_gt hdt), jmax0_some]

/-- Witness for C5 at a concrete counter reset (`curr < prev`). -/
theorem c5_rate_nonneg_witness :
    (0 : Int) < 2000 ∧
      ∃ r : ℚ, rateKBs (some 5000) (some 3000) (elapsedSecs 0 2000) = some r ∧ 0 ≤ r :=
  ⟨by decide, c5_rate_nonneg 5000 3000 0 2000 (by decide)⟩

/-! ## Per-device loop lemmas (disk family) -/

/-- A device that does not occur in the pass's entries is left completely
untouched by the per-device loop: stored baseline, emitted samples and
history stream all read back unchanged. -/
theorem perDiskLoop_not_mem (now : Int) (entries : List (String × JsNum × JsNum))
    (prevS : List (String × DiskPrev)) (out : List (String × RatePair))
    (hists : List (String × PerDiskHist)) (dev : String)
    (hdev : dev ∉ entries.map Prod.fst) :
    lookupA (perDiskLoop now entries prevS out hists).1 dev = lookupA prevS dev ∧
    lookupA (perDiskLoop now entries prevS out hists).2.1 dev = lookupA out dev ∧
    lookupA (perDiskLoop now entries prevS out hists).2.2 dev = lookupA hists dev := by
  induction entries generalizing prevS out hists with
  | nil => simp [perDiskLoop]
  | cons e rest ih =>
    obtain ⟨k, cnt⟩ := e
    have hk : k ≠ dev := fun h => hdev (by simp [h])
    have hdr : dev ∉ rest.map Prod.fst := fun h => hdev (by simp [h])
    simp only [perDiskLoop]
    cases hl : lookupA prevS k with
    | some p =>
      by_cases hdt : 0 < elapsedSecs p.timestamp now
      · simp only [hl, if_pos hdt]
        rcases ih (upsertA prevS k ⟨cnt.1, cnt.2, now⟩)
          (upsertA out k ⟨rateKBs p.read cnt.1 (elapsedSecs p.timestamp now),
            rateKBs p.write cnt.2 (elapsedSecs p.timestamp now)⟩)
          (upsertA hists k
            ⟨addHistoryPoint ((lookupA hists k).getD ⟨[], []⟩).read now
              (rateKBs p.read cnt.1 (elapsedSecs p.timestamp now)),
             addHistoryPoint ((lookupA hists k).getD ⟨[], []⟩).write now
              (rateKBs p.write cnt.2 (elapsedSecs p.timestamp now))⟩) hdr
          with ⟨h1, h2, h3⟩
        rw [h1, h2, h3, lookupA_upsertA_ne _ _ _ _ hk, lookupA_upsertA_ne _ _ _ _ hk,
          lookupA_upsertA_ne _ _ _ _ hk]
        exact ⟨rfl, rfl, rfl⟩
      · simp only [hl, if_neg hdt]
        rcases ih (upsertA prevS k ⟨cnt.1, cnt.2, now⟩) out hists hdr with ⟨h1, h2, h3⟩
        rw [h1, h2, h3, lookupA_upsertA_ne _ _ _ _ hk]
        exact ⟨rfl, rfl, rfl⟩
    | none =>
      simp only [hl]
      rcases ih (upsertA prevS k ⟨cnt.1, cnt.2, now⟩) out hists hdr with ⟨h1, h2, h3⟩
      rw [h1, h2, h3, lookupA_upsertA_ne _ _ _ _ hk]
      exact ⟨rfl, rfl, rfl⟩

/-- First sight of a device: no sample is emitted and no history stream
is created or touched for it; its counters and the pass timestamp are
stored as the new baseline. -/
theorem perDiskLoop_first_sight (now : Int) (entries : List (String × JsNum × JsNum))
    (prevS : List (String × DiskPrev)) (out : List (String × RatePair))
    (hists : List (String × PerDiskHist)) (dev : String) (cnt : JsNum × JsNum)
    (hnodup : (entries.map Prod.fst).Nodup)
    (hmem : (dev, cnt) ∈ entries)
    (hprev : lookupA prevS dev = none) :
    lookupA (perDiskLoop now entries prevS out hists).1 dev = some ⟨cnt.1, cnt.2, now⟩ ∧
    lookupA (perDiskLoop now entries prevS out hists).2.1 dev = lookupA out dev ∧
    lookupA (perDiskLoop now entries prevS out hists).2.2 dev = lookupA hists dev := by
  induction entries generalizing prevS out hists with
  | nil => simp at hmem
  | cons e rest ih =>
    obtain ⟨k, c⟩ := e
    rw [List.mem_cons] at hmem
    rcases hmem with hhd | htl
    · injection hhd with hdk hcc
      subst hdk
      subst hcc
      have hdr : dev ∉ rest.map Prod.fst := by
        simp only [List.map_cons, List.nodup_cons] at hnodup
        exact hnodup.1
      simp only [perDiskLoop, hprev]
      rcases perDiskLoop_not_mem now rest (upsertA prevS dev ⟨cnt.1, cnt.2, now⟩) out hists
        dev hdr with ⟨h1, h2, h3⟩
      rw [h1, h2, h3, lookupA_upsertA_self]
      exact ⟨rfl, rfl, rfl⟩
    · have hk : k ≠ dev := by
        intro h
        subst h
        have hmm : k ∈ rest.map Prod.fst := List.mem_map.mpr ⟨(k, cnt), htl, rfl⟩
        simp only [List.map_cons, List.nodup_cons] at hnodup
        exact hnodup.1 hmm
      have hnodup' : (rest.map Prod.fst).Nodup := by
        simp only [List.map_cons, List.nodup_cons] at hnodup
        exact hnodup.2
      simp only [perDiskLoop]
      cases hl : lookupA prevS k with
      | some p =>
        by_cases hdt : 0 < elapsedSecs p.timestamp now
        · simp only [hl, if_pos hdt]
          rcases ih (upsertA prevS k ⟨c.1, c.2, now⟩)
            (upsertA out k ⟨rateKBs p.read c.1 (elapsedSecs p.timestamp now),
              rateKBs p.write c.2 (elapsedSecs p.timestamp now)⟩)
            (upsertA hists k
              ⟨addHistoryPoint ((lookupA hists k).getD ⟨[], []⟩).read now
                (rateKBs p.read c.1 (elapsedSecs p.timestamp now)),
               addHistoryPoint ((lookupA hists k).getD ⟨[], []⟩).write now
                (rateKBs p.write c.2 (elapsedSecs p.timestamp now))⟩)
            hnodup' htl
            (by rw [lookupA_upsertA_ne _ _ _ _ hk]; exact hprev) with ⟨h1, h2, h3⟩
          rw [h1, h2, h3, lookupA_upsertA_ne _ _ _ _ hk, lookupA_upsertA_ne _ _ _ _ hk]
          exact ⟨rfl, rfl, rfl⟩
        · simp only [hl, if_neg hdt]
          rcases ih (upsertA prevS k ⟨c.1, c.2, now⟩) out hists hnodup' htl
            (by rw [lookupA_upsertA_ne _ _ _ _ hk]; exact hprev) with ⟨h1, h2, h3⟩
          exact ⟨h1, h2, h3⟩
      | none =>
        simp only [hl]
        rcases ih (upsertA prevS k ⟨c.1, c.2, now⟩) out hists hnodup' htl
          (by rw [lookupA_upsertA_ne _ _ _ _ hk]; exact hprev) with ⟨h1, h2, h3⟩
        exact ⟨h1, h2, h3⟩

/-- A tracked device seen again with non-positive elapsed time: no
sample is emitted and its history is untouched, but the stored baseline
is still refreshed with the new counters and timestamp. -/
theorem perDiskLoop_stale (now : Int) (entries : List (String × JsNum × JsNum))
    (prevS : List (String × DiskPrev)) (out : List (String × RatePair))
    (hists : List (String × PerDiskHist)) (dev : String) (cnt : JsNum × JsNum)
    (p : DiskPrev)
    (hnodup : (entries.map Prod.fst).Nodup)
    (hmem : (dev, cnt) ∈ entries)
    (hprev : lookupA prevS dev = some p)
    (hdt : ¬ 0 < elapsedSecs p.timestamp now) :
    lookupA (perDiskLoop now entries prevS out hists).1 dev = some ⟨cnt.1, cnt.2, now⟩ ∧
    lookupA (perDiskLoop now entries prevS out hists).2.1 dev = lookupA out dev ∧
    lookupA (perDiskLoop now entries prevS out hists).2.2 dev = lookupA hists dev := by
  induction entries generalizing prevS out hists with
  | nil => simp at hmem
  | cons e rest ih =>
    obtain ⟨k, c⟩ := e
    rw [List.mem_cons] at hmem
    rcases hmem with hhd | htl
    · injection hhd with hdk hcc
      subst hdk
      subst hcc
      have hdr : dev ∉ rest.map Prod.fst := by
        simp only [List.map_cons, List.nodup_cons] at hnodup
        exact hnodup.1
      simp only [perDiskLoop, hprev, if_neg hdt]
      rcases perDiskLoop_not_mem now rest (upsertA prevS dev ⟨cnt.1, cnt.2, now⟩) out hists
        dev hdr with ⟨h1, h2, h3⟩
      rw [h1, h2, h3, lookupA_upsertA_self]
      exact ⟨rfl, rfl, rfl⟩
    · have hk : k ≠ dev := by
        intro h
        subst h
        have hmm : k ∈ rest.map Prod.fst := List.mem_map.mpr ⟨(k, cnt), htl, rfl⟩
        simp only [List.map_cons, List.nodup_cons] at hnodup
        exact hnodup.1 hmm
      have hnodup' : (rest.map Prod.fst).Nodup := by
        simp only [List.map_cons, List.nodup_cons] at hnodup
        exact hnodup.2
      simp only [perDiskLoop]
      cases hl : lookupA prevS k with
      | some q =>
        by_cases hqdt : 0 < elapsedSecs q.timestamp now
        · simp only [hl, if_pos hqdt]
          rcases ih (upsertA prevS k ⟨c.1, c.2, now⟩)
            (upsertA out k ⟨rateKBs q.read c.1 (elapsedSecs q.timestamp now),
              rateKBs q.write c.2 (elapsedSecs q.timestamp now)⟩)
            (upsertA hists k
              ⟨addHistoryPoint ((lookupA hists k).getD ⟨[], []⟩).read now
                (rateKBs q.read c.1 (elapsedSecs q.timestamp now)),
               addHistoryPoint ((lookupA hists k).getD ⟨[], []⟩).write now
                (rateKBs q.write c.2 (elapsedSecs q.timestamp now))⟩)
            hnodup' htl
            (by rw [lookupA_upsertA_ne _ _ _ _ hk]; exact hprev) with ⟨h1, h2, h3⟩
          rw [h1, h2, h3, lookupA_upsertA_ne _ _ _ _ hk, lookupA_upsertA_ne _ _ _ _ hk]
          exact ⟨rfl, rfl, rfl⟩
        · simp only [hl, if_neg hqdt]
          rcases ih (upsertA prevS k ⟨c.1, c.2, now⟩) out hists hnodup' htl
            (by rw [lookupA_upsertA_ne _ _ _ _ hk]; exact hprev) with ⟨h1, h2, h3⟩
          exact ⟨h1, h2, h3⟩
      | none =>
        simp only [hl]
        rcases ih (upsertA prevS k ⟨c.1, c.2, now⟩) out hists hnodup' htl
          (by rw [lookupA_upsertA_ne _ _ _ _ hk]; exact hprev) with ⟨h1, h2, h3⟩
        exact ⟨h1, h2, h3⟩

/-- A tracked device seen again with positive elapsed time: a rate
sample computed with `rateKBs` is emitted, the device history gets the
new points appended, and the baseline is refreshed. -/
theorem perDiskLoop_tracked (now : Int) (entries : List (String × JsNum × JsNum))
    (prevS : List (String × DiskPrev)) (out : List (String × RatePair))
    (hists : List (String × PerDiskHist)) (dev : String) (cnt : JsNum × JsNum)
    (p : DiskPrev)
    (hnodup : (entries.map Prod.fst).Nodup)
    (hmem : (dev, cnt) ∈ entries)
    (hprev : lookupA prevS dev = some p)
    (hdt : 0 < elapsedSecs p.timestamp now) :
    lookupA (perDiskLoop now entries prevS out hists).1 dev = some ⟨cnt.1, cnt.2, now⟩ ∧
    lookupA (perDiskLoop now entries prevS out hists).2.1 dev
      = some ⟨rateKBs p.read cnt.1 (elapsedSecs p.timestamp now),
          rateKBs p.write cnt.2 (elapsedSecs p.timestamp now)⟩ ∧
    lookupA (perDiskLoop now entries prevS out hists).2.2 dev
      = some ⟨addHistoryPoint ((lookupA hists dev).getD ⟨[], []⟩).read now
            (rateKBs p.read cnt.1 (elapsedSecs p.timestamp now)),
          addHistoryPoint ((lookupA hists dev).getD ⟨[], []⟩).write now
            (rateKBs p.write cnt.2 (elapsedSecs p.timestamp now))⟩ := by
  induction entries generalizing prevS out hists with
  | nil => simp at hmem
  | cons e rest ih =>
    obtain ⟨k, c⟩ := e
    rw [List.mem_cons] at hmem
    rcases hmem with hhd | htl
    · injection hhd with hdk hcc
      subst hdk
      subst hcc
      have hdr : dev ∉ rest.map Prod.fst := by
        simp only [List.map_cons, List.nodup_cons] at hnodup
        exact hnodup.1
      simp only [perDiskLoop, hprev, if_pos hdt]
      rcases perDiskLoop_not_mem now rest (upsertA prevS dev ⟨cnt.1, cnt.2, now⟩)
        (upsertA out dev ⟨rateKBs p.read cnt.1 (elapsedSecs p.timestamp now),
          rateKBs p.write cnt.2 (elapsedSecs p.timestamp now)⟩)
        (upsertA hists dev
          ⟨addHistoryPoint ((lookupA hists dev).getD ⟨[], []⟩).read now
            (rateKBs p.read cnt.1 (elapsedSecs p.timestamp now)),
           addHistoryPoint ((lookupA hists dev).getD ⟨[], []⟩).write now
            (rateKBs p.write cnt.2 (elapsedSecs p.timestamp now))⟩)
        dev hdr with ⟨h1, h2, h3⟩
      rw [h1, h2, h3, lookupA_upsertA_self, lookupA_upsertA_self, lookupA_upsertA_self]
      exact ⟨rfl, rfl, rfl⟩
    · have hk : k ≠ dev := by
        intro h
        subst h
        have hmm : k ∈ rest.map Prod.fst := List.mem_map.mpr ⟨(k, cnt), htl, rfl⟩
        simp only [List.map_cons, List.nodup_cons] at hnodup
        exact hnodup.1 hmm
      have hnodup' : (rest.map Prod.fst).Nodup := by
        simp only [List.map_cons, List.nodup_cons] at hnodup
        exact hnodup.2
      simp only [perDiskLoop]
      cases hl : lookupA prevS k with
      | some q =>
        by_cases hqdt : 0 < elapsedSecs q.timestamp now
        · simp only [hl, if_pos hqdt]
          rcases ih (upsertA prevS k ⟨c.1, c.2, now⟩)
            (upsertA out k ⟨rateKBs q.read c.1 (elapsedSecs q.timestamp now),
              rateKBs q.write c.2 (elapsedSecs q.timestamp now)⟩)
            (upsertA hists k
              ⟨addHistoryPoint ((lookupA hists k).getD ⟨[], []⟩).read now
                (rateKBs q.read c.1 (elapsedSecs q.timestamp now)),
               addHistoryPoint ((lookupA hists k).getD ⟨[], []⟩).write now
                (rateKBs q.write c.2 (elapsedSecs q.timestamp now))⟩)
            hnodup' htl
            (by rw [lookupA_upsertA_ne _ _ _ _ hk]; exact hprev) with ⟨h1, h2, h3⟩
          rw [h1, h2, h3, lookupA_upsertA_ne _ _ _ _ hk]
          exact ⟨rfl, rfl, rfl⟩
        · simp only [hl, if_neg hqdt]
          rcases ih (upsertA prevS k ⟨c.1, c.2, now⟩) out hists hnodup' htl
            (by rw [lookupA_upsertA_ne _ _ _ _ hk]; exact hprev) with ⟨h1, h2, h3⟩
          exact ⟨h1, h2, h3⟩
      | none =>
        simp only [hl]
        rcases ih (upsertA prevS k ⟨c.1, c.2, now⟩) out hists hnodup' htl
          (by rw [lookupA_upsertA_ne _ _ _ _ hk]; exact hprev) with ⟨h1, h2, h3⟩
        exact ⟨h1, h2, h3⟩

/-- Interface analogue of `perDiskLoop_not_mem`: an interface absent
from the pass's entries is left completely untouched by the
per-interface loop. -/
theorem perIfaceLoop_not_mem (now : Int) (entries : List (String × JsNum × JsNum))
    (prevS : List (String × NetPrev)) (out : List (String × NetRatePair))
    (hists : List (String × PerIfaceHist)) (iface : String)
    (hif : iface ∉ entries.map Prod.fst) :
    lookupA (perIfaceLoop now entries prevS out hists).1 iface = lookupA prevS iface ∧
    lookupA (perIfaceLoop now entries prevS out hists).2.1 iface = lookupA out iface ∧
    lookupA (perIfaceLoop now entries prevS out hists).2.2 iface = lookupA hists iface := by
  induction entries generalizing prevS out hists with
  | nil => simp [perIfaceLoop]
  | cons e rest ih =>
    obtain ⟨k, cnt⟩ := e
    have hk : k ≠ iface := fun h => hif (by simp [h])
    have hdr : iface ∉ rest.map Prod.fst := fun h => hif (by simp [h])
    simp only [perIfaceLoop]
    cases hl : lookupA prevS k with
    | some p =>
      by_cases hdt : 0 < elapsedSecs p.timestamp now
      · simp only [hl, if_pos hdt]
        rcases ih (upsertA prevS k ⟨cnt.1, cnt.2, now⟩)
          (upsertA out k ⟨rateKBs p.sent cnt.1 (elapsedSecs p.timestamp now),
            rateKBs p.recv cnt.2 (elapsedSecs p.timestamp now)⟩)
          (upsertA hists k
            ⟨addHistoryPoint ((lookupA hists k).getD ⟨[], []⟩).sent now
              (rateKBs p.sent cnt.1 (elapsedSecs p.timestamp now)),
             addHistoryPoint ((lookupA hists k).getD ⟨[], []⟩).recv now
              (rateKBs p.recv cnt.2 (elapsedSecs p.timestamp now))⟩) hdr
          with ⟨h1, h2, h3⟩
        rw [h1, h2, h3, lookupA_upsertA_ne _ _ _ _ hk, lookupA_upsertA_ne _ _ _ _ hk,
          lookupA_upsertA_ne _ _ _ _ hk]
        exact ⟨rfl, rfl, rfl⟩
      · simp only [hl, if_neg hdt]
        rcases ih (upsertA prevS k ⟨cnt.1, cnt.2, now⟩) out hists hdr with ⟨h1, h2, h3⟩
        rw [h1, h2, h3, lookupA_upsertA_ne _ _ _ _ hk]
        exact ⟨rfl, rfl, rfl⟩
    | none =>
      simp only [hl]
      rcases ih (upsertA prevS k ⟨cnt.1, cnt.2, now⟩) out hists hdr with ⟨h1, h2, h3⟩
      rw [h1, h2, h3, lookupA_upsertA_ne _ _ _ _ hk]
      exact ⟨rfl, rfl, rfl⟩

/-! ## Family projections of a successful pass

When all six reads resolve, each metric family's contribution to the
result and to the new state is, definitionally, its block applied to its
own content and its own state slice only. -/

theorem fetch_ok_cpu (now : Int) (sC mC uC lC dC nC : Option String) (st : ServiceState) :
    ((fetchSystemStats now (.ok sC) (.ok mC) (.ok uC) (.ok lC) (.ok dC) (.ok nC) st).1.cpuUsage
        = (cpuBlock now sC st.prevCpuTimes st.prevPerCoreTimes st.perCoreHistories).cpuUsage)
    ∧ ((fetchSystemStats now (.ok sC) (.ok mC) (.ok uC) (.ok lC) (.ok dC) (.ok nC) st).2.prevCpuTimes
        = (cpuBlock now sC st.prevCpuTimes st.prevPerCoreTimes st.perCoreHistories).prevCpuTimes)
    ∧ ((fetchSystemStats now (.ok sC) (.ok mC) (.ok uC) (.ok lC) (.ok dC) (.ok nC) st).2.perCoreHistories
        = (cpuBlock now sC st.prevCpuTimes st.prevPerCoreTimes st.perCoreHistories).perCoreHistories) :=
  ⟨rfl, rfl, rfl⟩

theorem fetch_ok_disk (now : Int) (sC mC uC lC dC nC : Option String) (st : ServiceState) :
    ((fetchSystemStats now (.ok sC) (.ok mC) (.ok uC) (.ok lC) (.ok dC) (.ok nC) st).1.diskReadRate
        = (diskBlock now dC st.prevDiskStats st.prevPerDiskStats st.perDiskHistories).diskReadRate)
    ∧ ((fetchSystemStats now (.ok sC) (.ok mC) (.ok uC) (.ok lC) (.ok dC) (.ok nC) st).1.diskWriteRate
        = (diskBlock now dC st.prevDiskStats st.prevPerDiskStats st.perDiskHistories).diskWriteRate)
    ∧ ((fetchSystemStats now (.ok sC) (.ok mC) (.ok uC) (.ok lC) (.ok dC) (.ok nC) st).1.perDiskStats
        = (diskBlock now dC st.prevDiskStats st.prevPerDiskStats st.perDiskHistories).perDiskStats)
    ∧ ((fetchSystemStats now (.ok sC) (.ok mC) (.ok uC) (.ok lC) (.ok dC) (.ok nC) st).2.prevPerDiskStats
        = (diskBlock now dC st.prevDiskStats st.prevPerDiskStats st.perDiskHistories).prevPerDiskStats)
    ∧ ((fetchSystemStats now (.ok sC) (.ok mC) (.ok uC) (.ok lC) (.ok dC) (.ok nC) st).2.perDiskHistories
        = (diskBlock now dC st.prevDiskStats st.prevPerDiskStats st.perDiskHistories).perDiskHistories) :=
  ⟨rfl, rfl, rfl, rfl, rfl⟩

theorem fetch_ok_net (now : Int) (sC mC uC lC dC nC : Option String) (st : ServiceState) :
    ((fetchSystemStats now (.ok sC) (.ok mC) (.ok uC) (.ok lC) (.ok dC) (.ok nC) st).1.perIfaceStats
        = (netBlock now nC st.prevNetStats st.prevPerIfaceStats st.perIfaceHistories).perIfaceStats)
    ∧ ((fetchSystemStats now (.ok sC) (.ok mC) (.ok uC) (.ok lC) (.ok dC) (.ok nC) st).2.prevPerIfaceStats
        = (netBlock now nC st.prevNetStats st.prevPerIfaceStats st.perIfaceHistories).prevPerIfaceStats)
    ∧ ((fetchSystemStats now (.ok sC) (.ok mC) (.ok uC) (.ok lC) (.ok dC) (.ok nC) st).2.perIfaceHistories
        = (netBlock now nC st.prevNetStats st.prevPerIfaceStats st.perIfaceHistories).perIfaceHistories) :=
  ⟨rfl, rfl, rfl⟩

theorem fetch_ok_diskAgg (now : Int) (sC mC uC lC dC nC : Option String)
    (st : ServiceState) :
    (fetchSystemStats now (.ok sC) (.ok mC) (.ok uC) (.ok lC) (.ok dC) (.ok nC)
        st).2.prevDiskStats
      = (diskBlock now dC st.prevDiskStats st.prevPerDiskStats
          st.perDiskHistories).prevDiskStats :=
  rfl

/-! ## Block bridge lemmas -/

theorem diskBlock_some_ne (now : Int) (s : String) (pa : Option DiskPrev)
    (pp : List (String × DiskPrev)) (hs : List (String × PerDiskHist)) (h : s ≠ "") :
    diskBlock now (some s) pa pp hs = diskBlockCore now (parseDiskStats s) pa pp hs := by
  simp [diskBlock, h]

theorem netBlock_some_ne (now : Int) (s : String) (pa : Option NetPrev)
    (pp : List (String × NetPrev)) (hs : List (String × PerIfaceHist)) (h : s ≠ "") :
    netBlock now (some s) pa pp hs = netBlockCore now (parseNetStats s) pa pp hs := by
  simp [netBlock, h]

theorem diskBlockCore_fields (now : Int) (parsed : JsNum × JsNum × List (String × JsNum × JsNum))
    (pa : Option DiskPrev) (pp : List (String × DiskPrev)) (hs : List (String × PerDiskHist)) :
    (diskBlockCore now parsed pa pp hs).prevPerDiskStats = (perDiskLoop now parsed.2.2 pp [] hs).1
    ∧ (diskBlockCore now parsed pa pp hs).perDiskStats = (perDiskLoop now parsed.2.2 pp [] hs).2.1
    ∧ (diskBlockCore now parsed pa pp hs).perDiskHistories
        = (perDiskLoop now parsed.2.2 pp [] hs).2.2
    ∧ (diskBlockCore now parsed pa pp hs).prevDiskStats = some ⟨parsed.1, parsed.2.1, now⟩ :=
  ⟨rfl, rfl, rfl, rfl⟩

theorem netBlockCore_fields (now : Int) (parsed : JsNum × JsNum × List (String × JsNum × JsNum))
    (pa : Option NetPrev) (pp : List (String × NetPrev)) (hs : List (String × PerIfaceHist)) :
    (netBlockCore now parsed pa pp hs).prevPerIfaceStats = (perIfaceLoop now parsed.2.2 pp [] hs).1
    ∧ (netBlockCore now parsed pa pp hs).perIfaceStats = (perIfaceLoop now parsed.2.2 pp [] hs).2.1
    ∧ (netBlockCore now parsed pa pp hs).perIfaceHistories
        = (perIfaceLoop now parsed.2.2 pp [] hs).2.2 :=
  ⟨rfl, rfl, rfl⟩

theorem diskBlockCore_agg_stale (now : Int)
    (parsed : JsNum × JsNum × List (String × JsNum × JsNum)) (p : DiskPrev)
    (pp : List (String × DiskPrev)) (hs : List (String × PerDiskHist))
    (hdt : ¬ 0 < elapsedSecs p.timestamp now) :
    (diskBlockCore now parsed (some p) pp hs).diskReadRate = some 0
    ∧ (diskBlockCore now parsed (some p) pp hs).diskWriteRate = some 0 := by
  constructor <;> simp [diskBlockCore, hdt]

theorem elapsedSecs_pos (t0 t1 : Int) (h : t0 < t1) : 0 < elapsedSecs t0 t1 := by
  have hc : (0 : ℚ) < ((t1 - t0 : Int) : ℚ) := by
    have hi : (0 : Int) < t1 - t0 := by omega
    exact_mod_cast hi
  unfold elapsedSecs
  positivity

theorem lookupA_nil {κ α : Type} [DecidableEq κ] (k : κ) :
    lookupA ([] : List (κ × α)) k = none := rfl

/-! ## C9: the 256 KB/s disk-rate scenario -/

/-- C9 — **confirmed**.  Device `sda` with read-sector counter going
1000 → 1512 over two passes 1000 ms apart: the pass output carries a
per-device read rate of 256 KB/s (sectors ×512 to bytes, byte delta
/1024 /elapsed-seconds; the write counter is unchanged so the write
rate is 0), and the same value appears in the aggregate read rate and
in the inlined rate expression applied to the byte counters. -/
theorem c9_disk_rate_scenario :
    lookupA scenPass2.1.perDiskStats "sda" = some ⟨some 256, some 0⟩
      ∧ scenPass2.1.diskReadRate = some 256
      ∧ rateKBs (some (1000 * 512)) (some (1512 * 512)) (elapsedSecs 0 1000) = some 256 := by
  with_unfolding_all decide

/-! ## C1: no pruning of vanished entities -/

/-- C1 counterexample.  After pass 3, whose diskstats report contains no
qualifying device (the reported entity set S is empty), the
previous-snapshot store still contains `sda` and `sda`'s history stream
still exists — the claim says both must be gone.  Moreover, when `sda`
reappears in pass 4, its read-history has two points (the old stream is
continued), not the fresh single-point stream the claim requires. -/
theorem c1_counterexample :
    (lookupA scenPass3.2.prevPerDiskStats "sda").isSome = true
      ∧ (lookupA scenPass3.2.perDiskHistories "sda").isSome = true
      ∧ (lookupA scenPass4.2.perDiskHistories "sda").map (fun h => h.read.length) = some 2 := by
  with_unfolding_all decide

/-- C1 — **corrected**.  Amended claim: `fetchSystemStats` performs no
pruning.  A previously tracked disk device (resp. network interface)
absent from the current pass's report keeps its stored
previous-snapshot entry and its history streams unchanged, so a later
reappearance continues from the old baseline and the old stream instead
of starting fresh. -/
theorem c1_amended (now : Int) (sC mC uC lC : Option String) (ds ns : String)
    (st : ServiceState) (dev iface : String)
    (hds : ds ≠ "") (hns : ns ≠ "")
    (hdev : dev ∉ (parseDiskStats ds).2.2.map Prod.fst)
    (hif : iface ∉ (parseNetStats ns).2.2.map Prod.fst) :
    lookupA (fetchSystemStats now (.ok sC) (.ok mC) (.ok uC) (.ok lC) (.ok (some ds))
        (.ok (some ns)) st).2.prevPerDiskStats dev = lookupA st.prevPerDiskStats dev
    ∧ lookupA (fetchSystemStats now (.ok sC) (.ok mC) (.ok uC) (.ok lC) (.ok (some ds))
        (.ok (some ns)) st).2.perDiskHistories dev = lookupA st.perDiskHistories dev
    ∧ lookupA (fetchSystemStats now (.ok sC) (.ok mC) (.ok uC) (.ok lC) (.ok (some ds))
        (.ok (some ns)) st).2.prevPerIfaceStats iface = lookupA st.prevPerIfaceStats iface
    ∧ lookupA (fetchSystemStats now (.ok sC) (.ok mC) (.ok uC) (.ok lC) (.ok (some ds))
        (.ok (some ns)) st).2.perIfaceHistories iface = lookupA st.perIfaceHistories iface := by
  have hd := fetch_ok_disk now sC mC uC lC (some ds) (some ns) st
  have hn := fetch_ok_net now sC mC uC lC (some ds) (some ns) st
  rw [hd.2.2.2.1, hd.2.2.2.2, hn.2.1, hn.2.2,
    diskBlock_some_ne now ds st.prevDiskStats st.prevPerDiskStats st.perDiskHistories hds,
    netBlock_some_ne now ns st.prevNetStats st.prevPerIfaceStats st.perIfaceHistories hns,
    (diskBlockCore_fields now (parseDiskStats ds) st.prevDiskStats st.prevPerDiskStats
      st.perDiskHistories).1,
    (diskBlockCore_fields now (parseDiskStats ds) st.prevDiskStats st.prevPerDiskStats
      st.perDiskHistories).2.2.1,
    (netBlockCore_fields now (parseNetStats ns) st.prevNetStats st.prevPerIfaceStats
      st.perIfaceHistories).1,
    (netBlockCore_fields now (parseNetStats ns) st.prevNetStats st.prevPerIfaceStats
      st.perIfaceHistories).2.2]
  exact ⟨(perDiskLoop_not_mem now _ _ [] _ dev hdev).1,
    (perDiskLoop_not_mem now _ _ [] _ dev hdev).2.2,
    (perIfaceLoop_not_mem now _ _ [] _ iface hif).1,
    (perIfaceLoop_not_mem now _ _ [] _ iface hif).2.2⟩

/-- Witness for the amended C1 at a concrete pass. -/
theorem c1_amended_witness :
    (("x" : String) ≠ "" ∧ "sda" ∉ (parseDiskStats "x").2.2.map Prod.fst
      ∧ "eth0" ∉ (parseNetStats "x").2.2.map Prod.fst)
    ∧ (lookupA (fetchSystemStats 2000 (.ok none) (.ok none) (.ok none) (.ok none)
          (.ok (some "x")) (.ok (some "x")) scenPass2.2).2.prevPerDiskStats "sda"
        = lookupA scenPass2.2.prevPerDiskStats "sda"
      ∧ lookupA (fetchSystemStats 2000 (.ok none) (.ok none) (.ok none) (.ok none)
          (.ok (some "x")) (.ok (some "x")) scenPass2.2).2.perDiskHistories "sda"
        = lookupA scenPass2.2.perDiskHistories "sda"
      ∧ lookupA (fetchSystemStats 2000 (.ok none) (.ok none) (.ok none) (.ok none)
          (.ok (some "x")) (.ok (some "x")) scenPass2.2).2.prevPerIfaceStats "eth0"
        = lookupA scenPass2.2.prevPerIfaceStats "eth0"
      ∧ lookupA (fetchSystemStats 2000 (.ok none) (.ok none) (.ok none) (.ok none)
          (.ok (some "x")) (.ok (some "x")) scenPass2.2).2.perIfaceHistories "eth0"
        = lookupA scenPass2.2.perIfaceHistories "eth0") :=
  ⟨⟨by decide, by decide, by decide⟩,
    c1_amended 2000 none none none none "x" "x" scenPass2.2 "sda" "eth0"
      (by decide) (by decide) (by decide) (by decide)⟩

/-! ## C6: non-positive elapsed time -/

/-- C6 counterexample.  A pass whose timestamp equals the stored
baseline timestamp for tracked device `sda` (elapsed time 0): the claim
says the derived per-entity rate result is 0, but the pass output
contains no rate sample for `sda` at all — `perDiskStats` lookup is
`none`, not the zero-valued sample `some ⟨some 0, some 0⟩`.  (The
aggregate rates are indeed 0.) -/
theorem c6_counterexample :
    lookupA c6Pass.1.perDiskStats "sda" = none
      ∧ ¬ lookupA c6Pass.1.perDiskStats "sda" = some ⟨some 0, some 0⟩
      ∧ c6Pass.1.diskReadRate = some 0 := by
  with_unfolding_all decide

/-- C6 — **corrected**.  Amended claim: for non-positive elapsed time
the aggregate rates are reported as 0, but per-entity no rate sample is
emitted at all (the entity is absent from the pass's per-entity output
map and no history point is appended for it), rather than a 0-valued
sample; the stored baseline is still refreshed with the new counters
and timestamp. -/
theorem c6_amended (now : Int) (sC mC uC lC nC : Option String) (ds : String)
    (st : ServiceState) (dev : String) (cnt : JsNum × JsNum) (p pa : DiskPrev)
    (hds : ds ≠ "")
    (hnodup : ((parseDiskStats ds).2.2.map Prod.fst).Nodup)
    (hmem : (dev, cnt) ∈ (parseDiskStats ds).2.2)
    (hprev : lookupA st.prevPerDiskStats dev = some p)
    (hdt : ¬ 0 < elapsedSecs p.timestamp now)
    (hpa : st.prevDiskStats = some pa)
    (hpadt : ¬ 0 < elapsedSecs pa.timestamp now) :
    (fetchSystemStats now (.ok sC) (.ok mC) (.ok uC) (.ok lC) (.ok (some ds)) (.ok nC)
        st).1.diskReadRate = some 0
    ∧ (fetchSystemStats now (.ok sC) (.ok mC) (.ok uC) (.ok lC) (.ok (some ds)) (.ok nC)
        st).1.diskWriteRate = some 0
    ∧ lookupA (fetchSystemStats now (.ok sC) (.ok mC) (.ok uC) (.ok lC) (.ok (some ds))
        (.ok nC) st).1.perDiskStats dev = none
    ∧ lookupA (fetchSystemStats now (.ok sC) (.ok mC) (.ok uC) (.ok lC) (.ok (some ds))
        (.ok nC) st).2.perDiskHistories dev = lookupA st.perDiskHistories dev
    ∧ lookupA (fetchSystemStats now (.ok sC) (.ok mC) (.ok uC) (.ok lC) (.ok (some ds))
        (.ok nC) st).2.prevPerDiskStats dev = some ⟨cnt.1, cnt.2, now⟩ := by
  have hd := fetch_ok_disk now sC mC uC lC (some ds) nC st
  rw [hd.1, hd.2.1, hd.2.2.1, hd.2.2.2.1, hd.2.2.2.2,
    diskBlock_some_ne now ds st.prevDiskStats st.prevPerDiskStats st.perDiskHistories hds,
    hpa,
    (diskBlockCore_fields now (parseDiskStats ds) (some pa) st.prevPerDiskStats
      st.perDiskHistories).1,
    (diskBlockCore_fields now (parseDiskStats ds) (some pa) st.prevPerDiskStats
      st.perDiskHistories).2.1,
    (diskBlockCore_fields now (parseDiskStats ds) (some pa) st.prevPerDiskStats
      st.perDiskHistories).2.2.1]
  have hstale := perDiskLoop_stale now (parseDiskStats ds).2.2 st.prevPerDiskStats []
    st.perDiskHistories dev cnt p hnodup hmem hprev hdt
  have hagg := diskBlockCore_agg_stale now (parseDiskStats ds) pa st.prevPerDiskStats
    st.perDiskHistories hpadt
  exact ⟨hagg.1, hagg.2, by rw [hstale.2.1]; exact lookupA_nil dev, hstale.2.2, hstale.1⟩

/-- Witness for the amended C6: a pass over `smallStaleState` whose
timestamp equals the stored baseline timestamp (elapsed time 0 for both
the aggregate pair and `sda`). -/
theorem c6_amended_witness :
    (diskLineSmallB ≠ ""
      ∧ ((parseDiskStats diskLineSmallB).2.2.map Prod.fst).Nodup
      ∧ ("sda", (some 1536 : JsNum), (some 2048 : JsNum)) ∈ (parseDiskStats diskLineSmallB).2.2
      ∧ lookupA smallStaleState.prevPerDiskStats "sda" = some ⟨some 1024, some 2048, 1000⟩
      ∧ ¬ 0 < elapsedSecs (1000 : Int) 1000
      ∧ smallStaleState.prevDiskStats = some ⟨some 1024, some 2048, 1000⟩)
    ∧ ((fetchSystemStats 1000 (.ok none) (.ok none) (.ok none) (.ok none)
          (.ok (some diskLineSmallB)) (.ok none) smallStaleState).1.diskReadRate = some 0
      ∧ (fetchSystemStats 1000 (.ok none) (.ok none) (.ok none) (.ok none)
          (.ok (some diskLineSmallB)) (.ok none) smallStaleState).1.diskWriteRate = some 0
      ∧ lookupA (fetchSystemStats 1000 (.ok none) (.ok none) (.ok none) (.ok none)
          (.ok (some diskLineSmallB)) (.ok none) smallStaleState).1.perDiskStats "sda" = none
      ∧ lookupA (fetchSystemStats 1000 (.ok none) (.ok none) (.ok none) (.ok none)
          (.ok (some diskLineSmallB)) (.ok none) smallStaleState).2.perDiskHistories "sda"
        = lookupA smallStaleState.perDiskHistories "sda"
      ∧ lookupA (fetchSystemStats 1000 (.ok none) (.ok none) (.ok none) (.ok none)
          (.ok (some diskLineSmallB)) (.ok none) smallStaleState).2.prevPerDiskStats "sda"
        = some ⟨some 1536, some 2048, 1000⟩) :=
  ⟨⟨by decide, by with_unfolding_all decide, by with_unfolding_all decide,
      by decide, by with_unfolding_all decide, by decide⟩,
    c6_amended 1000 none none none none none diskLineSmallB smallStaleState "sda"
      (some 1536, some 2048) ⟨some 1024, some 2048, 1000⟩
      ⟨some 1024, some 2048, 1000⟩
      (by decide) (by with_unfolding_all decide) (by with_unfolding_all decide)
      (by decide) (by with_unfolding_all decide) (by decide)
      (by with_unfolding_all decide)⟩

/-! ## C7: first-sight suppression -/

/-- C7 — **confirmed**.  A device first seen in a pass (no stored
previous snapshot for its key) yields no rate sample in that pass's
output and leaves its history untouched, but its current counters and
the pass timestamp are stored; a later pass (strictly later timestamp,
device reported again) then derives and emits a rate from exactly this
baseline via the `rateKBs` expression. -/
theorem c7_first_sight (now now2 : Int)
    (sC mC uC lC nC sC2 mC2 uC2 lC2 nC2 : Option String) (ds ds2 : String)
    (st : ServiceState) (dev : String) (cnt cnt2 : JsNum × JsNum)
    (hds : ds ≠ "") (hds2 : ds2 ≠ "")
    (hnodup : ((parseDiskStats ds).2.2.map Prod.fst).Nodup)
    (hmem : (dev, cnt) ∈ (parseDiskStats ds).2.2)
    (hprev : lookupA st.prevPerDiskStats dev = none)
    (hnodup2 : ((parseDiskStats ds2).2.2.map Prod.fst).Nodup)
    (hmem2 : (dev, cnt2) ∈ (parseDiskStats ds2).2.2)
    (hlt : now < now2) :
    lookupA (fetchSystemStats now (.ok sC) (.ok mC) (.ok uC) (.ok lC) (.ok (some ds))
        (.ok nC) st).1.perDiskStats dev = none
    ∧ lookupA (fetchSystemStats now (.ok sC) (.ok mC) (.ok uC) (.ok lC) (.ok (some ds))
        (.ok nC) st).2.prevPerDiskStats dev = some ⟨cnt.1, cnt.2, now⟩
    ∧ lookupA (fetchSystemStats now (.ok sC) (.ok mC) (.ok uC) (.ok lC) (.ok (some ds))
        (.ok nC) st).2.perDiskHistories dev = lookupA st.perDiskHistories dev
    ∧ lookupA (fetchSystemStats now2 (.ok sC2) (.ok mC2) (.ok uC2) (.ok lC2)
        (.ok (some ds2)) (.ok nC2)
        (fetchSystemStats now (.ok sC) (.ok mC) (.ok uC) (.ok lC) (.ok (some ds))
          (.ok nC) st).2).1.perDiskStats dev
      = some ⟨rateKBs cnt.1 cnt2.1 (elapsedSecs now now2),
          rateKBs cnt.2 cnt2.2 (elapsedSecs now now2)⟩ := by
  have hd1 := fetch_ok_disk now sC mC uC lC (some ds) nC st
  have hfirst := perDiskLoop_first_sight now (parseDiskStats ds).2.2 st.prevPerDiskStats []
    st.perDiskHistories dev cnt hnodup hmem hprev
  have e1 : lookupA (fetchSystemStats now (.ok sC) (.ok mC) (.ok uC) (.ok lC)
      (.ok (some ds)) (.ok nC) st).1.perDiskStats dev = none := by
    rw [hd1.2.2.1, diskBlock_some_ne now ds st.prevDiskStats st.prevPerDiskStats
        st.perDiskHistories hds,
      (diskBlockCore_fields now (parseDiskStats ds) st.prevDiskStats st.prevPerDiskStats
        st.perDiskHistories).2.1,
      hfirst.2.1]
    exact lookupA_nil dev
  have e2 : lookupA (fetchSystemStats now (.ok sC) (.ok mC) (.ok uC) (.ok lC)
      (.ok (some ds)) (.ok nC) st).2.prevPerDiskStats dev = some ⟨cnt.1, cnt.2, now⟩ := by
    rw [hd1.2.2.2.1, diskBlock_some_ne now ds st.prevDiskStats st.prevPerDiskStats
        st.perDiskHistories hds,
      (diskBlockCore_fields now (parseDiskStats ds) st.prevDiskStats st.prevPerDiskStats
        st.perDiskHistories).1]
    exact hfirst.1
  have e3 : lookupA (fetchSystemStats now (.ok sC) (.ok mC) (.ok uC) (.ok lC)
      (.ok (some ds)) (.ok nC) st).2.perDiskHistories dev = lookupA st.perDiskHistories dev := by
    rw [hd1.2.2.2.2, diskBlock_some_ne now ds st.prevDiskStats st.prevPerDiskStats
        st.perDiskHistories hds,
      (diskBlockCore_fields now (parseDiskStats ds) st.prevDiskStats st.prevPerDiskStats
        st.perDiskHistories).2.2.1]
    exact hfirst.2.2
  refine ⟨e1, e2, e3, ?_⟩
  have hd2 := fetch_ok_disk now2 sC2 mC2 uC2 lC2 (some ds2) nC2
    (fetchSystemStats now (.ok sC) (.ok mC) (.ok uC) (.ok lC) (.ok (some ds))
      (.ok nC) st).2
  rw [hd2.2.2.1, diskBlock_some_ne now2 ds2 _ _ _ hds2,
    (diskBlockCore_fields now2 (parseDiskStats ds2) _ _ _).2.1]
  exact (perDiskLoop_tracked now2 (parseDiskStats ds2).2.2 _ [] _ dev cnt2
    ⟨cnt.1, cnt.2, now⟩ hnodup2 hmem2 e2 (elapsedSecs_pos now now2 hlt)).2.1

/-- Witness for C7: first sight of `sda` with the small-counter rows
(read counter 2 → 3 sectors over 1000 ms). -/
theorem c7_first_sight_witness :
    (diskLineSmallA ≠ "" ∧ diskLineSmallB ≠ ""
      ∧ ((parseDiskStats diskLineSmallA).2.2.map Prod.fst).Nodup
      ∧ ("sda", (some 1024 : JsNum), (some 2048 : JsNum)) ∈ (parseDiskStats diskLineSmallA).2.2
      ∧ lookupA initState.prevPerDiskStats "sda" = none
      ∧ ((parseDiskStats diskLineSmallB).2.2.map Prod.fst).Nodup
      ∧ ("sda", (some 1536 : JsNum), (some 2048 : JsNum)) ∈ (parseDiskStats diskLineSmallB).2.2
      ∧ (0 : Int) < 1000)
    ∧ (lookupA (fetchSystemStats 0 (.ok none) (.ok none) (.ok none) (.ok none)
          (.ok (some diskLineSmallA)) (.ok none) initState).1.perDiskStats "sda" = none
      ∧ lookupA (fetchSystemStats 0 (.ok none) (.ok none) (.ok none) (.ok none)
          (.ok (some diskLineSmallA)) (.ok none) initState).2.prevPerDiskStats "sda"
        = some ⟨some 1024, some 2048, 0⟩
      ∧ lookupA (fetchSystemStats 0 (.ok none) (.ok none) (.ok none) (.ok none)
          (.ok (some diskLineSmallA)) (.ok none) initState).2.perDiskHistories "sda"
        = lookupA initState.perDiskHistories "sda"
      ∧ lookupA (fetchSystemStats 1000 (.ok none) (.ok none) (.ok none) (.ok none)
          (.ok (some diskLineSmallB)) (.ok none)
          (fetchSystemStats 0 (.ok none) (.ok none) (.ok none) (.ok none)
            (.ok (some diskLineSmallA)) (.ok none) initState).2).1.perDiskStats "sda"
        = some ⟨rateKBs (some 1024) (some 1536) (elapsedSecs 0 1000),
            rateKBs (some 2048) (some 2048) (elapsedSecs 0 1000)⟩) :=
  ⟨⟨by decide, by decide, by with_unfolding_all decide, by with_unfolding_all decide,
      by decide, by with_unfolding_all decide, by with_unfolding_all decide, by decide⟩,
    c7_first_sight 0 1000 none none none none none none none none none none
      diskLineSmallA diskLineSmallB initState "sda" (some 1024, some 2048)
      (some 1536, some 2048)
      (by decide) (by decide) (by with_unfolding_all decide) (by with_unfolding_all decide)
      (by decide) (by with_unfolding_all decide) (by with_unfolding_all decide) (by decide)⟩

/-! ## C2: family independence on read failure -/

/-- C2 counterexample.  A pass in which the `/proc/stat` read succeeds
with a readable tick line but the `/proc/diskstats` read rejects: the
claim says the CPU family is still processed (usage 50 % and an
advanced tick baseline, as the all-success variant of the same pass
shows), yet the output reports `cpuUsage = 0` and the stored CPU
baseline is unchanged — a single read rejection aborts every family. -/
theorem c2_counterexample :
    c2FailPass.1.cpuUsage = some 0
    ∧ c2FailPass.2.prevCpuTimes = cpuPrevState.prevCpuTimes
    ∧ c2OkPass.1.cpuUsage = some 50
    ∧ c2OkPass.2.prevCpuTimes
        = some [some 120, some 0, some 60, some 820, some 60, some 0, some 0, some 0] := by
  with_unfolding_all decide

/-- C2 — **corrected**.  Amended claim: the six family reads are issued
jointly (`Promise.all`) under one `try`.  If any single read rejects,
the entire pass's family processing is skipped — every family reports
its default/zero values and no previous-snapshot state is updated —
though no exception surfaces to the caller (the pass still returns a
stats object and appends the aggregate history points).  When all six
reads resolve, each family is processed independently: its output and
state slices depend only on its own content and its own state slice
(a family whose content is `null`/empty is skipped individually). -/
theorem c2_amended :
    (∀ (now : Int) (r1 r2 r3 r4 r5 r6 : Except Unit (Option String)) (st : ServiceState),
      promiseAll6 r1 r2 r3 r4 r5 r6 = .error () →
        fetchSystemStats now r1 r2 r3 r4 r5 r6 st
          = (initStats, { st with history := appendAggHistory now initStats st.history }))
    ∧ (∀ (now : Int) (sC mC uC lC dC nC : Option String) (st : ServiceState),
        (fetchSystemStats now (.ok sC) (.ok mC) (.ok uC) (.ok lC) (.ok dC) (.ok nC)
            st).1.cpuUsage
          = (cpuBlock now sC st.prevCpuTimes st.prevPerCoreTimes st.perCoreHistories).cpuUsage
        ∧ (fetchSystemStats now (.ok sC) (.ok mC) (.ok uC) (.ok lC) (.ok dC) (.ok nC)
            st).2.prevCpuTimes
          = (cpuBlock now sC st.prevCpuTimes st.prevPerCoreTimes st.perCoreHistories).prevCpuTimes
        ∧ (fetchSystemStats now (.ok sC) (.ok mC) (.ok uC) (.ok lC) (.ok dC) (.ok nC)
            st).1.perDiskStats
          = (diskBlock now dC st.prevDiskStats st.prevPerDiskStats
              st.perDiskHistories).perDiskStats
        ∧ (fetchSystemStats now (.ok sC) (.ok mC) (.ok uC) (.ok lC) (.ok dC) (.ok nC)
            st).2.prevPerDiskStats
          = (diskBlock now dC st.prevDiskStats st.prevPerDiskStats
              st.perDiskHistories).prevPerDiskStats
        ∧ (fetchSystemStats now (.ok sC) (.ok mC) (.ok uC) (.ok lC) (.ok dC) (.ok nC)
            st).1.perIfaceStats
          = (netBlock now nC st.prevNetStats st.prevPerIfaceStats
              st.perIfaceHistories).perIfaceStats) := by
  constructor
  · intro now r1 r2 r3 r4 r5 r6 st h
    unfold fetchSystemStats
    rw [h]
  · intro now sC mC uC lC dC nC st
    exact ⟨rfl, rfl, rfl, rfl, rfl⟩

/-- Witness for the amended C2 at a concrete rejected pass. -/
theorem c2_amended_witness :
    promiseAll6 (Except.ok (some statLineB)) okNone okNone okNone (Except.error ()) okNone
        = .error ()
    ∧ fetchSystemStats 2000 (Except.ok (some statLineB)) okNone okNone okNone
        (Except.error ()) okNone cpuPrevState
      = (initStats,
          { cpuPrevState with history := appendAggHistory 2000 initStats cpuPrevState.history }) :=
  ⟨rfl, c2_amended.1 2000 (Except.ok (some statLineB)) okNone okNone okNone
    (Except.error ()) okNone cpuPrevState rfl⟩

/-! ## C8: the CPU usage derivation -/

theorem jsum_map_some (l : List ℚ) : jsum (l.map some) = some l.sum := by
  have hgen : ∀ (q : ℚ), (l.map some).foldl jadd (some q) = some (q + l.sum) := by
    induction l with
    | nil => intro q; simp
    | cons a t ih =>
      intro q
      simp only [List.map_cons, List.foldl_cons, jadd, List.sum_cons]
      rw [ih (q + a)]
      ring_nf
  simpa [jsum] using hgen 0

theorem jidx3_map_some (l : List ℚ) (h : 3 < l.length) :
    jidx3 (l.map some) = some (l.getD 3 0) := by
  rw [jidx3]
  simp only [List.get?_eq_getElem?, List.getElem?_map]
  rw [List.getElem?_eq_getElem h]
  simp [List.getD, List.get?_eq_getElem?, List.getElem?_eq_getElem h]

theorem jidx4or0_map_some (l : List ℚ) : jidx4or0 (l.map some) = some (l.getD 4 0) := by
  rw [jidx4or0]
  simp only [List.get?_eq_getElem?, List.getElem?_map]
  cases hq : l[4]? with
  | none => simp [List.getD, List.get?_eq_getElem?, hq]
  | some v => simp [List.getD, List.get?_eq_getElem?, hq]

theorem sum_le_sum_pointwise (p : List ℚ) :
    ∀ (c : List ℚ), p.length = c.length → (∀ i, p.getD i 0 ≤ c.getD i 0) →
      p.sum ≤ c.sum := by
  induction p with
  | nil =>
    intro c hlen _
    cases c with
    | nil => simp
    | cons b cs => simp at hlen
  | cons a t ih =>
    intro c hlen hm
    cases c with
    | nil => simp at hlen
    | cons b cs =>
      have h0 : a ≤ b := by simpa [List.getD_cons_zero] using hm 0
      have ht : ∀ i, t.getD i 0 ≤ cs.getD i 0 := fun i => by
        simpa [List.getD_cons_succ] using hm (i + 1)
      have hlen2 : t.length = cs.length := by simpa using hlen
      have := ih cs hlen2 ht
      simp only [List.sum_cons]
      linarith

theorem getD_take_q (l : List ℚ) (n i : Nat) :
    (l.take n).getD i 0 = if i < n then l.getD i 0 else 0 := by
  by_cases h : i < n
  · rw [if_pos h]
    simp [List.getD, List.get?_eq_getElem?, List.getElem?_take_of_lt h]
  · rw [if_neg h]
    have hnone : (l.take n)[i]? = none := List.getElem?_eq_none (by
      rw [List.length_take]; omega)
    simp [List.getD, List.get?_eq_getElem?, hnone]

theorem getD_drop_q (l : List ℚ) : ∀ (n i : Nat),
    (l.drop n).getD i 0 = l.getD (n + i) 0 := by
  induction l with
  | nil => intro n i; simp [List.getD]
  | cons a t ih =>
    intro n i
    cases n with
    | zero => simp
    | succ m =>
      have hidx : m + 1 + i = (m + i) + 1 := by omega
      rw [List.drop_succ_cons, hidx, List.getD_cons_succ, ih m i]

theorem sum_decomp_q (l : List ℚ) (h : 5 ≤ l.length) :
    l.sum = (l.take 3).sum + (l.getD 3 0 + (l.getD 4 0 + (l.drop 5).sum)) := by
  have h3 : 3 < l.length := by omega
  have h4 : 4 < l.length := by omega
  have e1 : l.take 3 ++ l.drop 3 = l := List.take_append_drop 3 l
  have e2 : l.drop 3 = l.getD 3 0 :: l.drop 4 := by
    rw [List.drop_eq_getElem_cons h3]
    simp [List.getD, List.get?_eq_getElem?, List.getElem?_eq_getElem h3]
  have e3 : l.drop 4 = l.getD 4 0 :: l.drop 5 := by
    rw [List.drop_eq_getElem_cons h4]
    simp [List.getD, List.get?_eq_getElem?, List.getElem?_eq_getElem h4]
  conv_lhs => rw [← e1]
  rw [List.sum_append, e2, e3, List.sum_cons, List.sum_cons]

/-- C8 — **confirmed**.  General part: for monotone tick lists with at
least the five standard fields, aggregate CPU usage equals
`100 × (totalDelta − idleDelta) / totalDelta` when the total delta is
positive (the `Math.max/Math.min` clamp is inert there) and is 0 when
the total delta is zero.  Guard part: for arbitrary finite tick lists —
monotone or not — a zero or negative total tick delta yields a usage of
0 unconditionally.  Scenario part: the tick line
`cpu 100 0 50 800 50 0 0 0` followed one pass later by
`cpu 120 0 60 820 60 0 0 0` gives a total delta of 60, an idle+iowait
delta of 30, and an aggregate usage of 50 % through two full passes. -/
theorem c8_cpu_usage :
    (∀ (prev cur : List ℚ), prev.length = cur.length → 5 ≤ cur.length →
      (∀ i, prev.getD i 0 ≤ cur.getD i 0) →
      cpuUsageOf (prev.map some) (cur.map some)
        = if 0 < cur.sum - prev.sum
          then some (100 * ((cur.sum - prev.sum)
              - ((cur.getD 3 0 + cur.getD 4 0) - (prev.getD 3 0 + prev.getD 4 0)))
            / (cur.sum - prev.sum))
          else some 0)
    ∧ (∀ (prev cur : List ℚ), cur.sum - prev.sum ≤ 0 →
      cpuUsageOf (prev.map some) (cur.map some) = some 0)
    ∧ jsub (jsum (parseCpuLine statLineB)) (jsum (parseCpuLine statLineA)) = some 60
    ∧ jsub (jadd (jidx3 (parseCpuLine statLineB)) (jidx4or0 (parseCpuLine statLineB)))
        (jadd (jidx3 (parseCpuLine statLineA)) (jidx4or0 (parseCpuLine statLineA))) = some 30
    ∧ (fetchSystemStats 2000 (.ok (some statLineB)) (.ok none) (.ok none) (.ok none)
        (.ok none) (.ok none)
        (fetchSystemStats 0 (.ok (some statLineA)) (.ok none) (.ok none) (.ok none)
          (.ok none) (.ok none) initState).2).1.cpuUsage = some 50 := by
  refine ⟨?_, ?_, by with_unfolding_all decide, by with_unfolding_all decide,
    by with_unfolding_all decide⟩
  swap
  · intro prev cur hle
    rw [cpuUsageOf, jsum_map_some, jsum_map_some, jsub_some, jposB_some]
    rw [if_neg (by simpa using not_lt.mpr hle)]
  intro prev cur hlen h5 hmono
  have h5p : 5 ≤ prev.length := by omega
  have hd3 : prev.getD 3 0 ≤ cur.getD 3 0 := hmono 3
  have hd4 : prev.getD 4 0 ≤ cur.getD 4 0 := hmono 4
  have htake : (prev.take 3).sum ≤ (cur.take 3).sum := by
    apply sum_le_sum_pointwise
    · rw [List.length_take, List.length_take, hlen]
    · intro i
      rw [getD_take_q, getD_take_q]
      by_cases hi : i < 3
      · rw [if_pos hi, if_pos hi]; exact hmono i
      · rw [if_neg hi, if_neg hi]
  have hdrop : (prev.drop 5).sum ≤ (cur.drop 5).sum := by
    apply sum_le_sum_pointwise
    · rw [List.length_drop, List.length_drop, hlen]
    · intro i
      rw [getD_drop_q, getD_drop_q]
      exact hmono (5 + i)
  have hdecp := sum_decomp_q prev h5p
  have hdecc := sum_decomp_q cur h5
  rw [cpuUsageOf, jsum_map_some, jsum_map_some, jsub_some,
    jidx3_map_some cur (by omega), jidx3_map_some prev (by omega),
    jidx4or0_map_some, jidx4or0_map_some, jadd_some, jadd_some, jsub_some, jposB_some]
  by_cases h0 : 0 < cur.sum - prev.sum
  · rw [if_pos (by simpa using h0), if_pos h0]
    have htd : cur.sum - prev.sum ≠ 0 := ne_of_gt h0
    rw [jsub_some, jdiv_some, if_neg htd, jmul_some, jmin100_some, jmax0_some]
    have hidl0 : 0 ≤ (cur.getD 3 0 + cur.getD 4 0) - (prev.getD 3 0 + prev.getD 4 0) := by
      linarith
    have hidltd : (cur.getD 3 0 + cur.getD 4 0) - (prev.getD 3 0 + prev.getD 4 0)
        ≤ cur.sum - prev.sum := by
      rw [hdecp, hdecc]
      linarith
    set td := cur.sum - prev.sum with htddef
    set idl := (cur.getD 3 0 + cur.getD 4 0) - (prev.getD 3 0 + prev.getD 4 0) with hidldef
    have hx0 : 0 ≤ (td - idl) / td * 100 := by
      have hq : 0 ≤ (td - idl) / td := div_nonneg (by linarith) (le_of_lt h0)
      linarith
    have hx100 : (td - idl) / td * 100 ≤ 100 := by
      have hle1 : (td - idl) / td ≤ 1 := by
        rw [div_le_one h0]
        linarith
      nlinarith
    rw [min_eq_right hx100, max_eq_right hx0]
    congr 1
    field_simp
    ring
  · rw [if_neg (by simpa using h0), if_neg h0]

/-- Witness for the general and guard parts of C8: the scenario tick lists
for the positive-delta formula, and the same lists swapped (a counter
reset, total delta −60) for the zero-or-negative guard. -/
theorem c8_cpu_usage_witness :
    (([(100 : ℚ), 0, 50, 800, 50, 0, 0, 0] : List ℚ).length
        = ([(120 : ℚ), 0, 60, 820, 60, 0, 0, 0] : List ℚ).length
      ∧ 5 ≤ ([(120 : ℚ), 0, 60, 820, 60, 0, 0, 0] : List ℚ).length
      ∧ ∀ i, ([(100 : ℚ), 0, 50, 800, 50, 0, 0, 0] : List ℚ).getD i 0
          ≤ ([(120 : ℚ), 0, 60, 820, 60, 0, 0, 0] : List ℚ).getD i 0)
    ∧ cpuUsageOf (([(100 : ℚ), 0, 50, 800, 50, 0, 0, 0] : List ℚ).map some)
        (([(120 : ℚ), 0, 60, 820, 60, 0, 0, 0] : List ℚ).map some) = some 50
    ∧ (([(100 : ℚ), 0, 50, 800, 50, 0, 0, 0] : List ℚ).sum
        - ([(120 : ℚ), 0, 60, 820, 60, 0, 0, 0] : List ℚ).sum ≤ 0)
    ∧ cpuUsageOf (([(120 : ℚ), 0, 60, 820, 60, 0, 0, 0] : List ℚ).map some)
        (([(100 : ℚ), 0, 50, 800, 50, 0, 0, 0] : List ℚ).map some) = some 0 := by
  have hm : ∀ i, ([(100 : ℚ), 0, 50, 800, 50, 0, 0, 0] : List ℚ).getD i 0
      ≤ ([(120 : ℚ), 0, 60, 820, 60, 0, 0, 0] : List ℚ).getD i 0 := by
    intro i
    match i with
    | 0 => norm_num
    | 1 => norm_num
    | 2 => norm_num
    | 3 => norm_num
    | 4 => norm_num
    | n + 5 => simp [List.getD]
  refine ⟨⟨rfl, by norm_num, hm⟩, ?_, by norm_num, ?_⟩
  · rw [c8_cpu_usage.1 [(100 : ℚ), 0, 50, 800, 50, 0, 0, 0]
      [(120 : ℚ), 0, 60, 820, 60, 0, 0, 0] rfl (by norm_num) hm]
    norm_num
  · rw [c8_cpu_usage.2.1 [(120 : ℚ), 0, 60, 820, 60, 0, 0, 0]
      [(100 : ℚ), 0, 50, 800, 50, 0, 0, 0] (by norm_num)]

/-! ## C10: the disk device-name filter -/

theorem qualifies_false_of_endsDigit (s : String) (h : endsWithDigit s.data = true) :
    qualifiesDiskDev s = false := by
  simp [qualifiesDiskDev, h]

/-- What one diskstats line does to the collected row map: either it is
left unchanged, or a device with a qualifying name is upserted. -/
theorem diskLineStep_rows (acc : JsNum × JsNum × List (String × JsNum × JsNum))
    (line : String) :
    (diskLineStep acc line).2.2 = acc.2.2
    ∨ (qualifiesDiskDev (((trimSplitWs line).get? 2).getD "") = true
        ∧ ∃ r w, (diskLineStep acc line).2.2
            = upsertA acc.2.2 (((trimSplitWs line).get? 2).getD "") (r, w)) := by
  by_cases h14 : 14 ≤ (trimSplitWs line).length
  · by_cases hq : qualifiesDiskDev (((trimSplitWs line).get? 2).getD "") = true
    · right
      refine ⟨hq, jmul (jsParseInt (((trimSplitWs line).get? 5).getD "")) (some 512),
        jmul (jsParseInt (((trimSplitWs line).get? 9).getD "")) (some 512), ?_⟩
      simp only [List.get?_eq_getElem?] at hq ⊢
      simp [diskLineStep, h14, hq]
    · left
      simp only [List.get?_eq_getElem?] at hq
      simp [diskLineStep, h14, hq]
  · left
    simp [diskLineStep, h14]

/-- Every device recorded by the diskstats parsing loop has a
qualifying name. -/
theorem diskFold_rows_qualify (lines : List String) :
    ∀ (acc : JsNum × JsNum × List (String × JsNum × JsNum)),
      (∀ dev rv, lookupA acc.2.2 dev = some rv → qualifiesDiskDev dev = true) →
      ∀ dev rv, lookupA (lines.foldl diskLineStep acc).2.2 dev = some rv →
        qualifiesDiskDev dev = true := by
  induction lines with
  | nil => intro acc hacc; simpa using hacc
  | cons l rest ih =>
    intro acc hacc
    rw [List.foldl_cons]
    apply ih
    intro dev rv hlk
    rcases diskLineStep_rows acc l with hid | ⟨hq, r, w, hup⟩
    · rw [hid] at hlk
      exact hacc dev rv hlk
    · rw [hup] at hlk
      by_cases hdev : ((trimSplitWs l).get? 2).getD "" = dev
      · rw [← hdev]
        exact hq
      · rw [lookupA_upsertA_ne _ _ _ _ hdev] at hlk
        exact hacc dev rv hlk

/-- A line whose device name ends in a digit (or which has fewer than
14 fields) leaves the accumulator untouched. -/
theorem diskLineStep_excluded (acc : JsNum × JsNum × List (String × JsNum × JsNum))
    (line : String)
    (h : 14 ≤ (trimSplitWs line).length →
      endsWithDigit ((((trimSplitWs line).get? 2).getD "") : String).data = true) :
    diskLineStep acc line = acc := by
  by_cases h14 : 14 ≤ (trimSplitWs line).length
  · have hqf := qualifies_false_of_endsDigit _ (h h14)
    simp only [List.get?_eq_getElem?] at hqf
    simp [diskLineStep, h14, hqf]
  · simp [diskLineStep, h14]

/-- Over content whose every ≥14-field line names a device ending in a
digit, the diskstats parse collects nothing: zero totals, no rows. -/
theorem parseDiskStats_excluded (content : String)
    (hall : ∀ line ∈ splitOnChar '\n' content, 14 ≤ (trimSplitWs line).length →
      endsWithDigit ((((trimSplitWs line).get? 2).getD "") : String).data = true) :
    parseDiskStats content = (some 0, some 0, []) := by
  have hfold : ∀ (ls : List String),
      (∀ line ∈ ls, 14 ≤ (trimSplitWs line).length →
        endsWithDigit ((((trimSplitWs line).get? 2).getD "") : String).data = true) →
      ∀ acc : JsNum × JsNum × List (String × JsNum × JsNum),
        ls.foldl diskLineStep acc = acc := by
    intro ls
    induction ls with
    | nil => intro _ acc; rfl
    | cons l rest ih =>
      intro hls acc
      rw [List.foldl_cons, diskLineStep_excluded acc l (hls l (by simp)),
        ih (fun x hx => hls x (by simp [hx]))]
  exact hfold (splitOnChar '\n' content) hall (some 0, some 0, [])

theorem rateKBs_zero (dt : ℚ) (h : dt ≠ 0) : rateKBs (some 0) (some 0) dt = some 0 := by
  rw [rateKBs, jsub_some, jdiv_some, if_neg (by norm_num), jdiv_some, if_neg h, jmax0_some]
  norm_num

/-- On a state whose aggregate disk baseline is absent or all-zero, a
pass with zero totals reports zero aggregate rates. -/
theorem diskBlockCore_agg_zero (now : Int) (rows : List (String × JsNum × JsNum))
    (pa : Option DiskPrev) (pp : List (String × DiskPrev)) (hs : List (String × PerDiskHist))
    (hinv : pa = none ∨ ∃ t : Int, pa = some ⟨some 0, some 0, t⟩) :
    (diskBlockCore now (some 0, some 0, rows) pa pp hs).diskReadRate = some 0
    ∧ (diskBlockCore now (some 0, some 0, rows) pa pp hs).diskWriteRate = some 0 := by
  rcases hinv with h | ⟨t, h⟩ <;> subst h
  · exact ⟨rfl, rfl⟩
  · by_cases hdt : 0 < elapsedSecs t now
    · constructor <;>
        simp [diskBlockCore, hdt, rateKBs_zero (elapsedSecs t now) (ne_of_gt hdt)]
    · constructor <;> simp [diskBlockCore, hdt]

/-- C10 — **confirmed**.  The disk filter counts a row only when the
device name matches `^(sd|nvme|vd|xvd|hd)[a-z]` and does not end in a
digit: every collected row has a qualifying name, every name ending in
a digit is excluded, and in particular `nvme0n1` is excluded.
Consequently on an NVMe-only system (every ≥14-field diskstats row
names a device ending in a digit) the parse collects zero totals and no
rows, and a pass over any state whose aggregate disk baseline is absent
or all-zero — as every pass of such a system leaves it, the baseline
invariant being re-established each pass — reports both aggregate disk
rates as 0, an empty `perDiskStats`, and leaves the per-device store
unchanged. -/
theorem c10_device_filter (now : Int) (sC mC uC lC nC : Option String) (ds : String)
    (st : ServiceState)
    (hds : ds ≠ "")
    (hall : ∀ line ∈ splitOnChar '\n' ds, 14 ≤ (trimSplitWs line).length →
      endsWithDigit ((((trimSplitWs line).get? 2).getD "") : String).data = true)
    (hinv : st.prevDiskStats = none ∨ ∃ t : Int, st.prevDiskStats = some ⟨some 0, some 0, t⟩) :
    (∀ s : String, endsWithDigit s.data = true → qualifiesDiskDev s = false)
    ∧ qualifiesDiskDev "nvme0n1" = false
    ∧ (∀ (content dev : String) (rv : JsNum × JsNum),
        lookupA (parseDiskStats content).2.2 dev = some rv → qualifiesDiskDev dev = true)
    ∧ parseDiskStats ds = (some 0, some 0, [])
    ∧ (fetchSystemStats now (.ok sC) (.ok mC) (.ok uC) (.ok lC) (.ok (some ds)) (.ok nC)
        st).1.diskReadRate = some 0
    ∧ (fetchSystemStats now (.ok sC) (.ok mC) (.ok uC) (.ok lC) (.ok (some ds)) (.ok nC)
        st).1.diskWriteRate = some 0
    ∧ (fetchSystemStats now (.ok sC) (.ok mC) (.ok uC) (.ok lC) (.ok (some ds)) (.ok nC)
        st).1.perDiskStats = []
    ∧ (fetchSystemStats now (.ok sC) (.ok mC) (.ok uC) (.ok lC) (.ok (some ds)) (.ok nC)
        st).2.prevDiskStats = some ⟨some 0, some 0, now⟩
    ∧ (fetchSystemStats now (.ok sC) (.ok mC) (.ok uC) (.ok lC) (.ok (some ds)) (.ok nC)
        st).2.prevPerDiskStats = st.prevPerDiskStats := by
  have hparse := parseDiskStats_excluded ds hall
  have hd := fetch_ok_disk now sC mC uC lC (some ds) nC st
  have hagg := diskBlockCore_agg_zero now [] st.prevDiskStats st.prevPerDiskStats
    st.perDiskHistories hinv
  refine ⟨fun s h => qualifies_false_of_endsDigit s h, by decide,
    fun content dev rv hlk => diskFold_rows_qualify (splitOnChar '\n' content)
      (some 0, some 0, []) (fun d v h => by simp [lookupA] at h) dev rv hlk,
    hparse, ?_, ?_, ?_, ?_, ?_⟩
  · rw [hd.1, diskBlock_some_ne now ds st.prevDiskStats st.prevPerDiskStats
      st.perDiskHistories hds, hparse]
    exact hagg.1
  · rw [hd.2.1, diskBlock_some_ne now ds st.prevDiskStats st.prevPerDiskStats
      st.perDiskHistories hds, hparse]
    exact hagg.2
  · rw [hd.2.2.1, diskBlock_some_ne now ds st.prevDiskStats st.prevPerDiskStats
      st.perDiskHistories hds, hparse]
    rfl
  · rw [fetch_ok_diskAgg now sC mC uC lC (some ds) nC st,
      diskBlock_some_ne now ds st.prevDiskStats st.prevPerDiskStats
        st.perDiskHistories hds, hparse]
    rfl
  · rw [hd.2.2.2.1, diskBlock_some_ne now ds st.prevDiskStats st.prevPerDiskStats
      st.perDiskHistories hds, hparse]
    rfl

/-- Witness for C10 on the `nvme0n1` row from the initial state. -/
theorem c10_device_filter_witness :
    (nvmeLine ≠ ""
      ∧ (∀ line ∈ splitOnChar '\n' nvmeLine, 14 ≤ (trimSplitWs line).length →
          endsWithDigit ((((trimSplitWs line).get? 2).getD "") : String).data = true))
    ∧ (qualifiesDiskDev "nvme0n1" = false
      ∧ parseDiskStats nvmeLine = (some 0, some 0, [])
      ∧ (fetchSystemStats 5 (.ok none) (.ok none) (.ok none) (.ok none)
          (.ok (some nvmeLine)) (.ok none) initState).1.diskReadRate = some 0
      ∧ (fetchSystemStats 5 (.ok none) (.ok none) (.ok none) (.ok none)
          (.ok (some nvmeLine)) (.ok none) initState).1.perDiskStats = []) :=
  ⟨⟨by decide, by decide⟩,
    let h := c10_device_filter 5 none none none none none nvmeLine initState
      (by decide) (by decide) (Or.inl rfl)
    ⟨h.2.1, h.2.2.2.1, h.2.2.2.2.1, h.2.2.2.2.2.2.1⟩⟩

/-! ## C3: accessor aliasing versus defensive copies -/

/-- Writing the array at one address leaves any other address unchanged. -/
theorem readArr_writeArr_ne (hp : Heap) (a b : Addr) (v : List HistoryPoint)
    (hne : a ≠ b) : readArr (writeArr hp a v) b = readArr hp b := by
  unfold readArr writeArr
  congr 1
  induction hp generalizing a b with
  | nil => rfl
  | cons c t ih =>
    cases a with
    | zero =>
      cases b with
      | zero => exact absurd rfl hne
      | succ b' => rfl
    | succ a' =>
      cases b with
      | zero => rfl
      | succ b' => exact ih a' b' (fun h => hne (by rw [h]))

/-- Reads of live addresses are unchanged by extending the heap. -/
theorem readArr_append_lt (hp t : Heap) (a : Addr) (ha : a < hp.length) :
    readArr (hp ++ t) a = readArr hp a := by
  unfold readArr
  congr 1
  induction hp generalizing a with
  | nil => exact absurd ha (by simp)
  | cons c r ih =>
    cases a with
    | zero => rfl
    | succ a' => exact ih a' (by simpa using ha)

/-- A read at the first position appended to `hp`. -/
theorem readArr_append_at : ∀ (hp : Heap) (x : List HistoryPoint) (t : Heap),
    readArr (hp ++ x :: t) hp.length = x := by
  intro hp
  induction hp with
  | nil => intro x t; rfl
  | cons c r ih => intro x t; exact ih x t

/-- A read at the second position appended to `hp`. -/
theorem readArr_append_at1 : ∀ (hp : Heap) (x y : List HistoryPoint) (t : Heap),
    readArr (hp ++ x :: y :: t) (hp.length + 1) = y := by
  intro hp
  induction hp with
  | nil => intro x y t; rfl
  | cons c r ih => intro x y t; exact ih x y t

/-- The pair-copy loop only ever appends freshly allocated arrays. -/
theorem copyPairStore_heap {κ : Type} :
    ∀ (store : List (κ × Addr × Addr)) (hp : Heap),
      ∃ t, (copyPairStore hp store).1 = hp ++ t := by
  intro store
  induction store with
  | nil => intro hp; exact ⟨[], by simp [copyPairStore]⟩
  | cons e rest ih =>
    intro hp
    obtain ⟨k, ar⟩ := e
    obtain ⟨t, ht⟩ :=
      ih ((hp ++ [readArr hp ar.1]) ++ [readArr (hp ++ [readArr hp ar.1]) ar.2])
    refine ⟨[readArr hp ar.1, readArr (hp ++ [readArr hp ar.1]) ar.2] ++ t, ?_⟩
    simp only [copyPairStore, copyArr, allocArr]
    rw [ht]
    simp

/-- The single-copy loop only ever appends freshly allocated arrays. -/
theorem copySingleStore_heap {κ : Type} :
    ∀ (store : List (κ × Addr)) (hp : Heap),
      ∃ t, (copySingleStore hp store).1 = hp ++ t := by
  intro store
  induction store with
  | nil => intro hp; exact ⟨[], by simp [copySingleStore]⟩
  | cons e rest ih =>
    intro hp
    obtain ⟨k, a⟩ := e
    obtain ⟨t, ht⟩ := ih (hp ++ [readArr hp a])
    refine ⟨[readArr hp a] ++ t, ?_⟩
    simp only [copySingleStore, copyArr, allocArr]
    rw [ht]
    simp

/-- Freshness of both addresses plus the two content equations already give
the full mutual non-interference package of `FreshPair`. -/
theorem FreshPair_intro (hp H : Heap) (ra wa oa ob : Addr)
    (hra : hp.length ≤ ra) (hwa : hp.length ≤ wa)
    (hrd : readArr H ra = readArr hp oa) (hwr : readArr H wa = readArr hp ob) :
    FreshPair hp H ra wa oa ob := by
  refine ⟨hra, hwa, hrd, hwr, ?_⟩
  intro a v ha
  have h1 : a ≠ ra := by omega
  have h2 : a ≠ wa := by omega
  have h3 : ra ≠ a := Ne.symm h1
  have h4 : wa ≠ a := Ne.symm h2
  exact ⟨readArr_writeArr_ne H a ra v h1, readArr_writeArr_ne H a wa v h2,
    readArr_writeArr_ne H ra a v h3, readArr_writeArr_ne H wa a v h4⟩

/-- Single-address analogue of `FreshPair_intro`. -/
theorem FreshSingle_intro (hp H : Heap) (ra oa : Addr)
    (hra : hp.length ≤ ra) (hrd : readArr H ra = readArr hp oa) :
    FreshSingle hp H ra oa := by
  refine ⟨hra, hrd, ?_⟩
  intro a v ha
  have h1 : a ≠ ra := by omega
  have h2 : ra ≠ a := Ne.symm h1
  exact ⟨readArr_writeArr_ne H a ra v h1, readArr_writeArr_ne H ra a v h2⟩

/-- Freshness relative to an extended heap implies freshness relative to the
original heap, for internal addresses live in the original heap. -/
theorem FreshPair_mono (hp t H : Heap) (ra wa oa ob : Addr)
    (hoa : oa < hp.length) (hob : ob < hp.length)
    (hf : FreshPair (hp ++ t) H ra wa oa ob) : FreshPair hp H ra wa oa ob := by
  obtain ⟨h1, h2, h3, h4, h5⟩ := hf
  have hle : hp.length ≤ (hp ++ t).length := by simp
  refine ⟨le_trans hle h1, le_trans hle h2, ?_, ?_, ?_⟩
  · rw [h3, readArr_append_lt hp t oa hoa]
  · rw [h4, readArr_append_lt hp t ob hob]
  · intro a v ha
    exact h5 a v (lt_of_lt_of_le ha hle)

/-- Single-address analogue of `FreshPair_mono`. -/
theorem FreshSingle_mono (hp t H : Heap) (ra oa : Addr)
    (hoa : oa < hp.length)
    (hf : FreshSingle (hp ++ t) H ra oa) : FreshSingle hp H ra oa := by
  obtain ⟨h1, h2, h3⟩ := hf
  have hle : hp.length ≤ (hp ++ t).length := by simp
  refine ⟨le_trans hle h1, ?_, ?_⟩
  · rw [h2, readArr_append_lt hp t oa hoa]
  · intro a v ha
    exact h3 a v (lt_of_lt_of_le ha hle)

/-- Pointwise `FreshPair_mono` over a `Forall₂` correspondence. -/
theorem forall2_FreshPair_mono {κ : Type} (hp t H : Heap) :
    ∀ (store res : List (κ × Addr × Addr)),
      PairStoreWF hp store →
      List.Forall₂ (fun e f => e.1 = f.1 ∧
          FreshPair (hp ++ t) H f.2.1 f.2.2 e.2.1 e.2.2) store res →
      List.Forall₂ (fun e f => e.1 = f.1 ∧
          FreshPair hp H f.2.1 f.2.2 e.2.1 e.2.2) store res := by
  intro store
  induction store with
  | nil =>
    intro res _ hF
    cases hF
    exact List.Forall₂.nil
  | cons e rest ih =>
    intro res hwf hF
    cases hF with
    | cons hhd htl =>
      refine List.Forall₂.cons ⟨hhd.1, ?_⟩
        (ih _ (fun f hf => hwf f (List.mem_cons_of_mem _ hf)) htl)
      exact FreshPair_mono hp t H _ _ _ _ (hwf e (by simp)).1 (hwf e (by simp)).2 hhd.2

/-- Pointwise `FreshSingle_mono` over a `Forall₂` correspondence. -/
theorem forall2_FreshSingle_mono {κ : Type} (hp t H : Heap) :
    ∀ (store res : List (κ × Addr)),
      SingleStoreWF hp store →
      List.Forall₂ (fun e f => e.1 = f.1 ∧ FreshSingle (hp ++ t) H f.2 e.2) store res →
      List.Forall₂ (fun e f => e.1 = f.1 ∧ FreshSingle hp H f.2 e.2) store res := by
  intro store
  induction store with
  | nil =>
    intro res _ hF
    cases hF
    exact List.Forall₂.nil
  | cons e rest ih =>
    intro res hwf hF
    cases hF with
    | cons hhd htl =>
      refine List.Forall₂.cons ⟨hhd.1, ?_⟩
        (ih _ (fun f hf => hwf f (List.mem_cons_of_mem _ hf)) htl)
      exact FreshSingle_mono hp t H _ _ (hwf e (by simp)) hhd.2

/-- Every entry returned by the pair-copy loop is a fresh independent copy of
the corresponding internal pair, as of the call-time heap. -/
theorem copyPairStore_fresh {κ : Type} :
    ∀ (store : List (κ × Addr × Addr)) (hp : Heap),
      PairStoreWF hp store →
      List.Forall₂ (fun e f => e.1 = f.1 ∧
          FreshPair hp (copyPairStore hp store).1 f.2.1 f.2.2 e.2.1 e.2.2)
        store (copyPairStore hp store).2 := by
  intro store
  induction store with
  | nil => intro hp _; exact List.Forall₂.nil
  | cons e rest ih =>
    intro hp hwf
    obtain ⟨k, ar⟩ := e
    have har1 : ar.1 < hp.length := (hwf (k, ar) (by simp)).1
    have har2 : ar.2 < hp.length := (hwf (k, ar) (by simp)).2
    have hwr : readArr (hp ++ [readArr hp ar.1]) ar.2 = readArr hp ar.2 :=
      readArr_append_lt hp [readArr hp ar.1] ar.2 har2
    have hstep : copyPairStore hp ((k, ar) :: rest)
        = ((copyPairStore (hp ++ [readArr hp ar.1, readArr hp ar.2]) rest).1,
           (k, hp.length, hp.length + 1)
             :: (copyPairStore (hp ++ [readArr hp ar.1, readArr hp ar.2]) rest).2) := by
      simp [copyPairStore, copyArr, allocArr, hwr]
    rw [hstep]
    obtain ⟨t, ht⟩ := copyPairStore_heap rest (hp ++ [readArr hp ar.1, readArr hp ar.2])
    refine List.Forall₂.cons ⟨rfl, ?_⟩ ?_
    · refine FreshPair_intro hp _ hp.length (hp.length + 1) ar.1 ar.2
        (le_refl _) (Nat.le_succ _) ?_ ?_
      · rw [ht]
        have hsplit : (hp ++ [readArr hp ar.1, readArr hp ar.2]) ++ t
            = hp ++ readArr hp ar.1 :: readArr hp ar.2 :: t := by simp
        rw [hsplit]
        exact readArr_append_at hp (readArr hp ar.1) (readArr hp ar.2 :: t)
      · rw [ht]
        have hsplit : (hp ++ [readArr hp ar.1, readArr hp ar.2]) ++ t
            = hp ++ readArr hp ar.1 :: readArr hp ar.2 :: t := by simp
        rw [hsplit]
        exact readArr_append_at1 hp (readArr hp ar.1) (readArr hp ar.2) t
    · have hwf2 : PairStoreWF (hp ++ [readArr hp ar.1, readArr hp ar.2]) rest := by
        intro f hf
        obtain ⟨hb1, hb2⟩ := hwf f (List.mem_cons_of_mem _ hf)
        have hlen : (hp ++ [readArr hp ar.1, readArr hp ar.2]).length = hp.length + 2 := by
          simp
        refine ⟨?_, ?_⟩
        · rw [hlen]; exact Nat.lt_succ_of_lt (Nat.lt_succ_of_lt hb1)
        · rw [hlen]; exact Nat.lt_succ_of_lt (Nat.lt_succ_of_lt hb2)
      have htail := ih (hp ++ [readArr hp ar.1, readArr hp ar.2]) hwf2
      exact forall2_FreshPair_mono hp [readArr hp ar.1, readArr hp ar.2] _ rest _
        (fun f hf => hwf f (List.mem_cons_of_mem _ hf)) htail

/-- Every entry returned by the single-copy loop is a fresh independent copy
of the corresponding internal array, as of the call-time heap. -/
theorem copySingleStore_fresh {κ : Type} :
    ∀ (store : List (κ × Addr)) (hp : Heap),
      SingleStoreWF hp store →
      List.Forall₂ (fun e f => e.1 = f.1 ∧
          FreshSingle hp (copySingleStore hp store).1 f.2 e.2)
        store (copySingleStore hp store).2 := by
  intro store
  induction store with
  | nil => intro hp _; exact List.Forall₂.nil
  | cons e rest ih =>
    intro hp hwf
    obtain ⟨k, a⟩ := e
    have ha : a < hp.length := hwf (k, a) (by simp)
    have hstep : copySingleStore hp ((k, a) :: rest)
        = ((copySingleStore (hp ++ [readArr hp a]) rest).1,
           (k, hp.length) :: (copySingleStore (hp ++ [readArr hp a]) rest).2) := by
      simp [copySingleStore, copyArr, allocArr]
    rw [hstep]
    obtain ⟨t, ht⟩ := copySingleStore_heap rest (hp ++ [readArr hp a])
    refine List.Forall₂.cons ⟨rfl, ?_⟩ ?_
    · refine FreshSingle_intro hp _ hp.length a (le_refl _) ?_
      rw [ht]
      have hsplit : (hp ++ [readArr hp a]) ++ t = hp ++ readArr hp a :: t := by simp
      rw [hsplit]
      exact readArr_append_at hp (readArr hp a) t
    · have hwf2 : SingleStoreWF (hp ++ [readArr hp a]) rest := by
        intro f hf
        have hb : f.2 < hp.length := hwf f (List.mem_cons_of_mem _ hf)
        have hlen : (hp ++ [readArr hp a]).length = hp.length + 1 := by simp
        show f.2 < (hp ++ [readArr hp a]).length
        rw [hlen]
        exact Nat.lt_succ_of_lt hb
      have htail := ih (hp ++ [readArr hp a]) hwf2
      exact forall2_FreshSingle_mono hp [readArr hp a] _ rest _
        (fun f hf => hwf f (List.mem_cons_of_mem _ hf)) htail

/-- Counterexample to C3: `getSystemHistory` returns `{ ...history }`, a
shallow copy whose six fields are the very array references of the internal
`history` object, so a later sampling pass's in-place append to the internal
cpu stream is visible through a previously returned snapshot.  Concretely:
on a heap of six empty streams, after `addHistoryPointAt` appends one point
to the internal cpu array, reading the cpu field of an earlier
`getSystemHistory` snapshot no longer yields what it yielded before. -/
theorem c3_counterexample :
    readArr
        (addHistoryPointAt ([[], [], [], [], [], []] : Heap)
          (SystemHistoryHandle.mk 0 1 2 3 4 5).cpu 7 (some 1))
        (getSystemHistory (SystemHistoryHandle.mk 0 1 2 3 4 5)).cpu
      ≠ readArr ([[], [], [], [], [], []] : Heap)
        (getSystemHistory (SystemHistoryHandle.mk 0 1 2 3 4 5)).cpu := by
  with_unfolding_all decide

/-- Amended C3: `getSystemHistory` is NOT defensive — it returns a shallow
copy (`{ ...history }`) that is field-for-field the same array references as
the internal history object — while the four per-entity accessors
(`getPerDiskHistory`, `getPerIfaceHistory`, `getGpuHistory`,
`getPerCoreHistory`) do return defensive copies: for every store whose
addresses are live in the heap, each returned entry carries the same key and
freshly allocated arrays holding the call-time contents of the internal
arrays, such that mutating any internal array leaves the returned copies
unchanged and mutating the returned copies leaves every internal array
unchanged. -/
theorem c3_amended (hist : SystemHistoryHandle) (hp : Heap)
    (dstore istore : List (String × Addr × Addr)) (gstore : List (Nat × Addr × Addr))
    (cstore : List (Nat × Addr))
    (hd : PairStoreWF hp dstore) (hi : PairStoreWF hp istore)
    (hg : PairStoreWF hp gstore) (hc : SingleStoreWF hp cstore) :
    getSystemHistory hist = hist
    ∧ List.Forall₂ (fun e f => e.1 = f.1 ∧
        FreshPair hp (getPerDiskHistory hp dstore).1 f.2.1 f.2.2 e.2.1 e.2.2)
        dstore (getPerDiskHistory hp dstore).2
    ∧ List.Forall₂ (fun e f => e.1 = f.1 ∧
        FreshPair hp (getPerIfaceHistory hp istore).1 f.2.1 f.2.2 e.2.1 e.2.2)
        istore (getPerIfaceHistory hp istore).2
    ∧ List.Forall₂ (fun e f => e.1 = f.1 ∧
        FreshPair hp (getGpuHistory hp gstore).1 f.2.1 f.2.2 e.2.1 e.2.2)
        gstore (getGpuHistory hp gstore).2
    ∧ List.Forall₂ (fun e f => e.1 = f.1 ∧
        FreshSingle hp (getPerCoreHistory hp cstore).1 f.2 e.2)
        cstore (getPerCoreHistory hp cstore).2 :=
  ⟨rfl, copyPairStore_fresh dstore hp hd, copyPairStore_fresh istore hp hi,
    copyPairStore_fresh gstore hp hg, copySingleStore_fresh cstore hp hc⟩

/-- Witness for the amended C3 on a concrete four-array heap with one
tracked disk device, one interface, one GPU and one core. -/
theorem c3_amended_witness :
    PairStoreWF ([[], [HistoryPoint.mk 1 (some 2)], [], []] : Heap)
        [("sda", (1 : Addr), (2 : Addr))]
    ∧ SingleStoreWF ([[], [HistoryPoint.mk 1 (some 2)], [], []] : Heap) [(0, (1 : Addr))]
    ∧ (getSystemHistory (SystemHistoryHandle.mk 0 1 2 3 4 5) = SystemHistoryHandle.mk 0 1 2 3 4 5
      ∧ List.Forall₂ (fun e f => e.1 = f.1 ∧
          FreshPair ([[], [HistoryPoint.mk 1 (some 2)], [], []] : Heap)
            (getPerDiskHistory ([[], [HistoryPoint.mk 1 (some 2)], [], []] : Heap)
              [("sda", (1 : Addr), (2 : Addr))]).1 f.2.1 f.2.2 e.2.1 e.2.2)
          [("sda", (1 : Addr), (2 : Addr))]
          (getPerDiskHistory ([[], [HistoryPoint.mk 1 (some 2)], [], []] : Heap)
            [("sda", (1 : Addr), (2 : Addr))]).2
      ∧ List.Forall₂ (fun e f => e.1 = f.1 ∧
          FreshPair ([[], [HistoryPoint.mk 1 (some 2)], [], []] : Heap)
            (getPerIfaceHistory ([[], [HistoryPoint.mk 1 (some 2)], [], []] : Heap)
              [("eth0", (0 : Addr), (3 : Addr))]).1 f.2.1 f.2.2 e.2.1 e.2.2)
          [("eth0", (0 : Addr), (3 : Addr))]
          (getPerIfaceHistory ([[], [HistoryPoint.mk 1 (some 2)], [], []] : Heap)
            [("eth0", (0 : Addr), (3 : Addr))]).2
      ∧ List.Forall₂ (fun e f => e.1 = f.1 ∧
          FreshPair ([[], [HistoryPoint.mk 1 (some 2)], [], []] : Heap)
            (getGpuHistory ([[], [HistoryPoint.mk 1 (some 2)], [], []] : Heap)
              [(0, (2 : Addr), (3 : Addr))]).1 f.2.1 f.2.2 e.2.1 e.2.2)
          [(0, (2 : Addr), (3 : Addr))]
          (getGpuHistory ([[], [HistoryPoint.mk 1 (some 2)], [], []] : Heap)
            [(0, (2 : Addr), (3 : Addr))]).2
      ∧ List.Forall₂ (fun e f => e.1 = f.1 ∧
          FreshSingle ([[], [HistoryPoint.mk 1 (some 2)], [], []] : Heap)
            (getPerCoreHistory ([[], [HistoryPoint.mk 1 (some 2)], [], []] : Heap)
              [(0, (1 : Addr))]).1 f.2 e.2)
          [(0, (1 : Addr))]
          (getPerCoreHistory ([[], [HistoryPoint.mk 1 (some 2)], [], []] : Heap)
            [(0, (1 : Addr))]).2) :=
  ⟨by decide, by decide,
    c3_amended (SystemHistoryHandle.mk 0 1 2 3 4 5)
      ([[], [HistoryPoint.mk 1 (some 2)], [], []] : Heap)
      [("sda", (1 : Addr), (2 : Addr))] [("eth0", (0 : Addr), (3 : Addr))]
      [(0, (2 : Addr), (3 : Addr))] [(0, (1 : Addr))]
      (by decide) (by decide) (by decide) (by decide)⟩

end CockpitTM
